import Mathlib

/-!
# playd: the Player command and resource engine

A shallow embedding of `src/src/player.cpp`.  The player owns the current
audio file, a running flag and an optional response sink.  Its methods are
embedded as state-passing functions on `Player τ`, where `τ` is the type of
audio handles supplied by the audio system.  A C++ exception that leaves a
method is an `Except.error` next to the state the method left behind.
-/

namespace Playd

/-! ## Results, errors and responses -/

/-- Equality of `Except` values is decidable when it is for both sides. -/
instance instDecidableEqExcept {ε α : Type} [DecidableEq ε] [DecidableEq α] :
    DecidableEq (Except ε α) := fun x y =>
  match x, y with
  | Except.ok a, Except.ok b =>
    if h : a = b then isTrue (congrArg Except.ok h)
    else isFalse (fun h2 => h (Except.ok.inj h2))
  | Except.error a, Except.error b =>
    if h : a = b then isTrue (congrArg Except.error h)
    else isFalse (fun h2 => h (Except.error.inj h2))
  | Except.ok _, Except.error _ => isFalse (fun h => Except.noConfusion h)
  | Except.error _, Except.ok _ => isFalse (fun h => Except.noConfusion h)

/-- The tri-state outcome of a command (`CommandResult`). -/
inductive CommandResult where
  | Success : CommandResult
  | Invalid (msg : String) : CommandResult
  | Failure (msg : String) : CommandResult
  deriving DecidableEq, Repr

/-- The classes of playd exception: the `Error` subclasses of `errors.hpp`, and
`NoAudioError`, which `player.cpp` catches by name. -/
inductive ErrorKind where
  | ConfigError | InternalError | FileError | SeekError | NetError | NoAudioError
  deriving DecidableEq, Repr

/-- A playd exception: its class and its human-readable message. -/
structure Error where
  kind : ErrorKind
  Message : String
  deriving DecidableEq, Repr

/-- Modelled from the spec: the `Response` class of `response.hpp`, which is
not among the sources.  A response is a code followed by ordered string
arguments. -/
structure Response where
  code : String
  args : List String
  deriving DecidableEq, Repr

/-- Appends one argument to a response (`Response::AddArg`). -/
def Response.AddArg (r : Response) (arg : String) : Response :=
  { r with args := r.args ++ [arg] }

/-- Modelled from the spec: `Response::Res(type, path, value)`, the resource
response; for a directory the spec describes it as a `Directory` response
carrying the path and the child count. -/
def Response.Res (type path value : String) : Response :=
  { code := type, args := [path, value] }

/-- The human-readable messages used by the player.  `messages.h` as shipped
defines only `MSG_CMD_INVALID` and `MSG_OHAI`; the others are declared in a
later revision of the header and are taken as parameters. -/
structure Messages where
  MSG_NOT_FOUND : String
  MSG_INVALID_ACTION : String
  MSG_INVALID_PAYLOAD : String
  MSG_CMD_PLAYER_CLOSING : String
  MSG_CMD_NEEDS_LOADED : String
  MSG_LOAD_EMPTY_PATH : String
  MSG_SEEK_INVALID_VALUE : String

/-- Message shown when the command handler receives an invalid command. -/
def MSG_CMD_INVALID : String := "Bad command or file name"

/-- Message shown when a client connects. -/
def MSG_OHAI : String := "Playslave++"

/-! ## The audio collaborator -/

/-- The playback status an audio handle reports from `Update`. -/
inductive AudioState where
  | AT_END | PLAYING | OTHER
  deriving DecidableEq, Repr

/-- Modelled from the spec: the audio system (`audio.Null`, `audio.Load`) and
the interface of the handles it returns (`Update`, `SetPlaying`, `Seek`,
`Emit`), declared in `audio/audio_system.hpp` and `audio/audio.hpp`, which are
not among the sources.  A handle is a value of `τ`; a method that changes the
handle returns the new one, and a method that raises leaves it as it was. -/
structure AudioSystem (τ : Type) where
  Null : τ
  Load : String → Except Error τ
  Update : τ → AudioState × τ
  SetPlaying : τ → Bool → Except Error τ
  Seek : τ → Nat → Except Error τ
  Emit : τ → String → Bool → Option Response

/-- One call made by the player on the audio system or on the current handle. -/
inductive AudioCall where
  | Null : AudioCall
  | Load (path : String) : AudioCall
  | Update : AudioCall
  | SetPlaying (playing : Bool) : AudioCall
  | Seek (pos : Nat) : AudioCall
  | Emit (path : String) (broadcast : Bool) : AudioCall
  deriving DecidableEq, Repr

/-! ## The player -/

/-- The state of a `Player`: the current audio handle `file`, the flag
`is_running`, and `sink`, which is `none` for a null pointer and otherwise
holds, in order, every response the sink has been handed with the client id it
was addressed to.  `calls` is a record of the calls made on the audio
collaborator, kept so that "is not called" can be stated. -/
structure Player (τ : Type) where
  file : τ
  is_running : Bool
  sink : Option (List (Response × Nat))
  calls : List AudioCall
  deriving DecidableEq

/-- The list of features (`Player::FEATURES`). -/
def FEATURES : List String := ["End", "FileLoad", "PlayStop", "Seek", "TimeReport"]

/-- The resource table (`Player::RESOURCES`), a multimap from a resource to
its children, in key order with equal keys in insertion order.  A resource
with the single child `""` is an entry. -/
def RESOURCES : List (String × String) :=
  [ ("/", "/control"),
    ("/", "/player"),
    ("/control", "/control/state"),
    ("/control/state", ""),
    ("/player", "/player/file"),
    ("/player", "/player/time"),
    ("/player/file", ""),
    ("/player/time", "/player/time/elapsed"),
    ("/player/time/elapsed", "") ]

/-- The rows of the table with the given key (`RESOURCES.equal_range`). -/
def RESOURCES_equal_range (path : String) : List (String × String) :=
  RESOURCES.filter (fun kv => decide (kv.1 = path))

/-- The number of rows with the given key (`RESOURCES.count`). -/
def RESOURCES_count (path : String) : Nat :=
  (RESOURCES_equal_range path).length

namespace Player

variable {τ : Type}

/-- The constructor: the null handle, running, no sink. -/
def new (A : AudioSystem τ) : Player τ :=
  { file := A.Null, is_running := true, sink := none, calls := [AudioCall.Null] }

/-- Attaches a sink that has received nothing yet (`Player::SetSink`). -/
def SetSink (p : Player τ) : Player τ :=
  { p with sink := some [] }

/-- Records a call on the audio collaborator. -/
def called (p : Player τ) (c : AudioCall) : Player τ :=
  { p with calls := p.calls ++ [c] }

/-- The guarded send `if (this->sink != nullptr) this->sink->Respond(r, id)`. -/
def Respond (p : Player τ) (r : Response) (id : Nat) : Player τ :=
  match p.sink with
  | none => p
  | some log => { p with sink := some (log ++ [(r, id)]) }

/-- The unguarded send `this->sink->Respond(r, id)`: dereferencing a null sink
is a fault, `none`. -/
def RespondRaw (p : Player τ) (r : Response) (id : Nat) : Option (Player τ) :=
  match p.sink with
  | none => none
  | some log => some { p with sink := some (log ++ [(r, id)]) }

/-- The body of `Player::Read`, with a bound on the depth of the recursion into
children; `none` means the bound was reached. -/
def ReadFuel (M : Messages) (A : AudioSystem τ) :
    Nat → Player τ → String → Nat → Option (CommandResult × Player τ)
  | 0, _, _, _ => none
  | fuel + 1, p, path, id =>
    let count := RESOURCES_count path
    if 0 < count then
      let range := RESOURCES_equal_range path
      if 1 = count ∧ range.head?.map Prod.snd = some "" then
        let p1 := p.called (AudioCall.Emit path (id == 0))
        match A.Emit p.file path (id == 0) with
        | none => some (CommandResult.Failure M.MSG_NOT_FOUND, p1)
        | some response => some (CommandResult.Success, p1.Respond response id)
      else
        let res := Response.Res "Directory" path (toString count)
        let p1 := p.Respond res id
        let done := range.foldl
          (fun acc i => acc.bind (fun q => (ReadFuel M A fuel q i.2 id).map Prod.snd))
          (some p1)
        done.map (fun q => (CommandResult.Success, q))
    else
      some (CommandResult.Failure M.MSG_NOT_FOUND, p)

/-- The method `Player::Read`: the table has nine rows, so no chain of children
is longer than nine, and `Read_eq_ReadFuel` shows the bound is never reached. -/
def Read (M : Messages) (A : AudioSystem τ) (p : Player τ) (path : String) (id : Nat) :
    CommandResult × Player τ :=
  (ReadFuel M A RESOURCES.length p path id).getD (CommandResult.Failure M.MSG_NOT_FOUND, p)

/-- The method `Player::ResourceFailure`. -/
def ResourceFailure (M : Messages) (path : String) : CommandResult :=
  if 0 < RESOURCES_count path then
    CommandResult.Failure M.MSG_INVALID_ACTION
  else
    CommandResult.Failure M.MSG_NOT_FOUND

/-- The method `Player::Eject`. -/
def Eject (M : Messages) (A : AudioSystem τ) (p : Player τ) : CommandResult × Player τ :=
  let p1 := { p.called AudioCall.Null with file := A.Null }
  let p2 := (Read M A p1 "/control/state" 0).2
  (CommandResult.Success, p2)

/-- The method `Player::Quit`. -/
def Quit (M : Messages) (A : AudioSystem τ) (p : Player τ) : CommandResult × Player τ :=
  let p1 := (Eject M A p).2
  (CommandResult.Success, { p1 with is_running := false })

/-- The method `Player::Load`. -/
def Load (M : Messages) (A : AudioSystem τ) (p : Player τ) (path : String) :
    Except Error CommandResult × Player τ :=
  if path.isEmpty then (Except.ok (CommandResult.Invalid M.MSG_LOAD_EMPTY_PATH), p)
  else
    let p1 := { p.called AudioCall.Null with file := A.Null }
    let p2 := p1.called (AudioCall.Load path)
    match A.Load path with
    | Except.ok f =>
      let p3 := (Read M A { p2 with file := f } "/" 0).2
      (Except.ok CommandResult.Success, p3)
    | Except.error e =>
      if e.kind = ErrorKind.FileError then
        let p3 := (Eject M A p2).2
        (Except.ok (CommandResult.Failure e.Message), p3)
      else
        let p3 := (Eject M A p2).2
        (Except.error e, p3)

/-- The method `Player::SetPlaying`. -/
def SetPlaying (M : Messages) (A : AudioSystem τ) (p : Player τ) (playing : Bool) :
    Except Error CommandResult × Player τ :=
  let p1 := p.called (AudioCall.SetPlaying playing)
  match A.SetPlaying p.file playing with
  | Except.error e =>
    if e.kind = ErrorKind.NoAudioError then
      (Except.ok (CommandResult.Invalid e.Message), p1)
    else
      (Except.error e, p1)
  | Except.ok f =>
    let p2 := (Read M A { p1 with file := f } "/control/state" 0).2
    (Except.ok CommandResult.Success, p2)

/-- The method `Player::SeekRaw`. -/
def SeekRaw (M : Messages) (A : AudioSystem τ) (p : Player τ) (pos : Nat) :
    Except Error Unit × Player τ :=
  let p1 := p.called (AudioCall.Seek pos)
  match A.Seek p.file pos with
  | Except.error e => (Except.error e, p1)
  | Except.ok f =>
    let p2 := (Read M A { p1 with file := f } "/player/time/elapsed" 0).2
    (Except.ok (), p2)

/-- The method `Player::End`.  The response `END` is sent with the default client id,
the broadcast id 0. -/
def End (M : Messages) (A : AudioSystem τ) (p : Player τ) : Except Error Unit × Player τ :=
  match SetPlaying M A p false with
  | (Except.error e, p1) => (Except.error e, p1)
  | (Except.ok _, p1) =>
    match SeekRaw M A p1 0 with
    | (Except.error e, p2) => (Except.error e, p2)
    | (Except.ok _, p2) =>
      if p2.sink.isNone then (Except.ok (), p2)
      else (Except.ok (), p2.Respond { code := "END", args := [] } 0)

/-! ### Parsing a seek position -/

/-- The C locale's `isspace`: space, and the controls from tab to carriage
return. -/
def isspace (c : Char) : Bool :=
  decide (c.toNat = 32) || (decide (9 ≤ c.toNat) && decide (c.toNat ≤ 13))

/-- The C locale's `isdigit`. -/
def isdigit (c : Char) : Bool :=
  decide (48 ≤ c.toNat) && decide (c.toNat ≤ 57)

/-- The two exceptions `std::stoull` raises. -/
inductive StdException where
  | invalid_argument | out_of_range
  deriving DecidableEq, Repr

/-- The largest `unsigned long long`. -/
def ULLONG_MAX : Nat := 2 ^ 64 - 1

/-- The value of a run of decimal digits. -/
def digitsValue (ds : List Char) : Nat :=
  ds.foldl (fun acc c => 10 * acc + (c.toNat - 48)) 0

/-- The library function `std::stoull(str, &pos)` in base ten, as the C++
standard defines it through `strtoull`: leading white space is skipped, one
sign is accepted, then the longest run of digits is converted.  No digits is
`invalid_argument`; a value above `ULLONG_MAX` is `out_of_range`; a minus sign
negates the value in 64-bit unsigned arithmetic.  The result is the value and
the number of characters processed. -/
def stoull (str : String) : Except StdException (Nat × Nat) :=
  let cs := str.data
  let spaces := cs.takeWhile isspace
  let body := cs.dropWhile isspace
  let negative := decide (body.head? = some '-')
  let signLen := if body.head? = some '-' ∨ body.head? = some '+' then 1 else 0
  let digits := (body.drop signLen).takeWhile isdigit
  if digits.isEmpty then Except.error StdException.invalid_argument
  else
    let v := digitsValue digits
    if ULLONG_MAX < v then Except.error StdException.out_of_range
    else
      Except.ok (if negative then (2 ^ 64 - v) % 2 ^ 64 else v,
        spaces.length + signLen + digits.length)

/-- The method `Player::SeekParse`. -/
def SeekParse (M : Messages) (time_str : String) : Except Error Nat :=
  match stoull time_str with
  | Except.error _ => Except.error ⟨ErrorKind.SeekError, M.MSG_SEEK_INVALID_VALUE⟩
  | Except.ok (pos, cpos) =>
    let sl := time_str.length
    if cpos ≠ sl then Except.error ⟨ErrorKind.SeekError, M.MSG_SEEK_INVALID_VALUE⟩
    else Except.ok pos

/-- The method `Player::Seek`. -/
def Seek (M : Messages) (A : AudioSystem τ) (p : Player τ) (time_str : String) :
    Except Error CommandResult × Player τ :=
  match SeekParse M time_str with
  | Except.error e =>
    if e.kind = ErrorKind.SeekError then (Except.ok (CommandResult.Invalid e.Message), p)
    else (Except.error e, p)
  | Except.ok pos =>
    match SeekRaw M A p pos with
    | (Except.ok _, p1) => (Except.ok CommandResult.Success, p1)
    | (Except.error e, p1) =>
      if e.kind = ErrorKind.NoAudioError then
        (Except.ok (CommandResult.Invalid M.MSG_CMD_NEEDS_LOADED), p1)
      else if e.kind = ErrorKind.SeekError then
        match End M A p1 with
        | (Except.ok _, p2) => (Except.ok CommandResult.Success, p2)
        | (Except.error e2, p2) => (Except.error e2, p2)
      else (Except.error e, p1)

/-! ### The resource verbs and the dispatcher -/

/-- A method that cannot raise, seen as one that can. -/
def noRaise (r : CommandResult × Player τ) : Except Error CommandResult × Player τ :=
  (Except.ok r.1, r.2)

/-- The method `Player::Write`. -/
def Write (M : Messages) (A : AudioSystem τ) (p : Player τ) (path payload : String) :
    Except Error CommandResult × Player τ :=
  if "/control/state" = path then
    if "Playing" = payload then SetPlaying M A p true
    else if "Stopped" = payload then SetPlaying M A p false
    else if "Ejected" = payload then noRaise (Eject M A p)
    else if "Quitting" = payload then noRaise (Quit M A p)
    else (Except.ok (CommandResult.Invalid M.MSG_INVALID_PAYLOAD), p)
  else if "/player/file" = path then Load M A p payload
  else if "/player/time/elapsed" = path then Seek M A p payload
  else (Except.ok (ResourceFailure M path), p)

/-- The method `Player::Delete`. -/
def Delete (M : Messages) (A : AudioSystem τ) (p : Player τ) (path : String) :
    Except Error CommandResult × Player τ :=
  if "/control/state" = path then noRaise (Quit M A p)
  else if "/player/file" = path then noRaise (Eject M A p)
  else if "/player/time/elapsed" = path then Seek M A p "0"
  else (Except.ok (ResourceFailure M path), p)

/-- The method `Player::RunCommand`.  The words are indexed as `cmd[i]`; every index used
is within bounds by the test on `nargs` before it. -/
def RunCommand (M : Messages) (A : AudioSystem τ) (p : Player τ) (cmd : List String)
    (id : Nat) : Except Error CommandResult × Player τ :=
  if !p.is_running then
    (Except.ok (CommandResult.Failure M.MSG_CMD_PLAYER_CLOSING), p)
  else if cmd.length = 0 then (Except.ok (CommandResult.Invalid MSG_CMD_INVALID), p)
  else
    let word := cmd.getD 0 ""
    let nargs := cmd.length - 1
    if nargs = 2 ∧ "read" = word then noRaise (Read M A p (cmd.getD 2 "") id)
    else if nargs = 2 ∧ "delete" = word then Delete M A p (cmd.getD 2 "")
    else if nargs = 3 ∧ "write" = word then Write M A p (cmd.getD 2 "") (cmd.getD 3 "")
    else (Except.ok (CommandResult.Invalid MSG_CMD_INVALID), p)

/-- The method `Player::Update`. -/
def Update (M : Messages) (A : AudioSystem τ) (p : Player τ) : Except Error Bool × Player τ :=
  let as := A.Update p.file
  let p1 := { p.called AudioCall.Update with file := as.2 }
  let ended := if as.1 = AudioState.AT_END then End M A p1 else (Except.ok (), p1)
  match ended with
  | (Except.error e, p2) => (Except.error e, p2)
  | (Except.ok _, p2) =>
    let p3 := if as.1 = AudioState.PLAYING then (Read M A p2 "/player/time/elapsed" 0).2 else p2
    (Except.ok p3.is_running, p3)

/-- The method `Player::WelcomeClient`: the two greetings are sent without the null test,
so the result is `none`, a fault, when no sink is attached. -/
def WelcomeClient (M : Messages) (A : AudioSystem τ) (p : Player τ) (id : Nat) :
    Option (Player τ) :=
  (p.RespondRaw (Response.AddArg { code := "OHAI", args := [] } MSG_OHAI) id).bind fun p1 =>
    let features := FEATURES.foldl Response.AddArg { code := "FEATURES", args := [] }
    (p1.RespondRaw features id).bind fun p2 =>
      some (Read M A p2 "/" id).2

/-- Two player states with the same audio handle, the same running flag and
the same sink pointer (attached or null). -/
def sameCore (p q : Player τ) : Prop :=
  q.file = p.file ∧ q.is_running = p.is_running ∧ q.sink.isSome = p.sink.isSome

/-- The player state after the responses `out` have been handed to its sink,
if one is attached, and the calls `cs` made on the audio collaborator. -/
def extend (p : Player τ) (out : List (Response × Nat)) (cs : List AudioCall) : Player τ :=
  { p with sink := p.sink.map (fun log => log ++ out), calls := p.calls ++ cs }

/-- A player holding the file `f`, with a sink that has received nothing and no
call recorded. -/
def blank (f : τ) : Player τ :=
  { file := f, is_running := true, sink := some [], calls := [] }

/-- The responses `Read(path, id)` sends, in order, with their addressees: what
an attached sink that held nothing holds after the read. -/
def Read_sent (M : Messages) (A : AudioSystem τ) (f : τ) (path : String) (id : Nat) :
    List (Response × Nat) :=
  (Read M A (blank f) path id).2.sink.getD []

/-- The same player with no sink attached. -/
def dropSink (p : Player τ) : Player τ :=
  { p with sink := none }

/-- The sink `s2` is the sink `s1` after it was handed further responses, every
one of them addressed to the broadcast id 0; a null sink stays null. -/
def broadcastOnly (s1 s2 : Option (List (Response × Nat))) : Prop :=
  ∃ out : List (Response × Nat), s2 = s1.map (fun log => log ++ out) ∧ ∀ x ∈ out, x.2 = 0

/-- The calls `Read(path, id)` makes on the audio collaborator, in order. -/
def Read_calls (M : Messages) (A : AudioSystem τ) (f : τ) (path : String) (id : Nat) :
    List AudioCall :=
  (Read M A (blank f) path id).2.calls

end Player

/-! ## The listener-based player

The `Player` of `src/player.cpp`, the earlier design: it keeps an explicit
playback state and hands the position to a registered listener, no more often
than a period allows.  Durations are `std::chrono::microseconds`, signed 64-bit
counts of microseconds: a duration is an `Int` from -2^63 to 2^63 - 1, and the
difference of two durations is the 64-bit one, `wrap64`, which is the
mathematical difference whenever that fits 64 bits, as it does for two
positions. -/

namespace Legacy

/-- The signed 64-bit value of an integer: `x` brought into the range from
-2^63 to 2^63 - 1 by wrap-around, as the machine subtraction of two
`std::chrono::microseconds` leaves it. -/
def wrap64 (x : Int) : Int :=
  (x + 9223372036854775808) % 18446744073709551616 - 9223372036854775808

/-- A position of an audio output: a count of microseconds from 0 to
2^63 - 1. -/
def isPosition (x : Int) : Prop :=
  0 ≤ x ∧ x < 9223372036854775808

/-- Being a position is decidable. -/
instance instDecidableIsPosition (x : Int) : Decidable (isPosition x) :=
  inferInstanceAs (Decidable (0 ≤ x ∧ x < 9223372036854775808))

/-- The playback states named in `src/player.cpp`. -/
inductive State where
  | EJECTED | STOPPED | PLAYING
  deriving DecidableEq, Repr

/-- The interface of the audio output `au` used by `src/player.cpp`, declared
in `audio.hpp`, which is not among the sources: the current position in
microseconds, whether the output has halted, and an update that reports
whether playback can go on.  A value of `α` is the state of an audio output. -/
structure AudioOutput (α : Type) where
  CurrentPosition : α → Int
  IsHalted : α → Bool
  Update : α → Bool × α

/-- The state of the listener-based `Player`: the playback state, the audio
output `au` (`none` for a null pointer), the position listener (`none` for a
null one, otherwise the callback), the period, the last position sent and the
flag that says there is none yet.  `announced` records, in order, every
invocation of a position listener: which callback, with which position. -/
structure Player (α L : Type) where
  current_state : State
  au : Option α
  position_listener : Option L
  position_period : Int
  position_last : Int
  position_last_invalid : Bool
  announced : List (L × Int)
  deriving DecidableEq

namespace Player

variable {α L : Type}

/-- The constructor `Player::Player`. -/
def new : Player α L :=
  { current_state := State.EJECTED,
    au := none,
    position_listener := none,
    position_period := 0,
    position_last := 0,
    position_last_invalid := true,
    announced := [] }

/-- The method `Player::RegisterPositionListener`. -/
def RegisterPositionListener (p : Player α L) (listener : Option L) (period : Int) :
    Player α L :=
  { p with position_listener := listener, position_period := period }

/-- The method `Player::CurrentStateIn`. -/
def CurrentStateIn (p : Player α L) (states : List State) : Bool :=
  states.contains p.current_state

/-- The method `Player::IsReadyToSendPosition`.  The difference of the two
durations is the signed 64-bit one. -/
def IsReadyToSendPosition (p : Player α L) (current_position : Int) : Bool :=
  if p.position_last_invalid then true
  else if p.position_listener.isSome then
    let difference := wrap64 (current_position - p.position_last)
    decide (difference ≥ p.position_period)
  else false

/-- The method `Player::SendPositionIfReady`.  Reading the position through a
null `au`, and invoking a null listener, are faults: `none`. -/
def SendPositionIfReady (A : AudioOutput α) (p : Player α L) : Option (Player α L) :=
  match p.au with
  | none => none
  | some a =>
    let position := A.CurrentPosition a
    if IsReadyToSendPosition p position then
      match p.position_listener with
      | none => none
      | some listener =>
        some { p with
          announced := p.announced ++ [(listener, position)],
          position_last := position,
          position_last_invalid := false }
    else some p

/-- The method `Player::Update`.  The method `Eject` is defined in a file that
is not among the sources and is taken as a parameter. -/
def Update (A : AudioOutput α) (Eject : Player α L → Option (Player α L)) (p : Player α L) :
    Option (Player α L) :=
  let first : Option (Player α L) :=
    if p.current_state = State.PLAYING then
      match p.au with
      | none => none
      | some a => if A.IsHalted a then Eject p else SendPositionIfReady A p
    else some p
  first.bind fun p1 =>
    if CurrentStateIn p1 [State.PLAYING, State.STOPPED] then
      match p1.au with
      | none => none
      | some a =>
        let p2 : Player α L := { p1 with au := some (A.Update a).2 }
        if !(A.Update a).1 then Eject p2 else some p2
    else some p1

/-- Successive calls of `SendPositionIfReady`, the audio output being in the
given states at the successive calls. -/
def sendEach (A : AudioOutput α) : Player α L → List α → Option (Player α L)
  | p, [] => some p
  | p, a :: rest =>
    (SendPositionIfReady A { p with au := some a }).bind fun q => sendEach A q rest

/-- The state of a player whose announcements so far respect the period: a
listener is registered for the period, any two consecutive positions announced
differ by at least the period, the last position sent is the last one
announced and is a position, and nothing has been announced while there is no
last position. -/
def throttled (listener : L) (period : Int) (p : Player α L) : Prop :=
  p.position_listener = some listener ∧
  p.position_period = period ∧
  List.Chain' (fun x y : Int => period ≤ y - x) (p.announced.map Prod.snd) ∧
  (p.position_last_invalid = false → p.announced.getLast? = some (listener, p.position_last)) ∧
  (p.position_last_invalid = true → p.announced = []) ∧
  (p.position_last_invalid = false → isPosition p.position_last)

end Player

end Legacy

/-! ## Sample collaborators

Concrete messages and audio systems on which the definitions can be run. -/

/-- A set of pairwise different messages. -/
def sampleMessages : Messages :=
  { MSG_NOT_FOUND := "not found",
    MSG_INVALID_ACTION := "invalid action",
    MSG_INVALID_PAYLOAD := "invalid payload",
    MSG_CMD_PLAYER_CLOSING := "player closing",
    MSG_CMD_NEEDS_LOADED := "needs loaded",
    MSG_LOAD_EMPTY_PATH := "empty path",
    MSG_SEEK_INVALID_VALUE := "invalid seek value" }

/-- A small audio system.  A handle is `none` for the null audio, which raises
`NoAudioError` on `SetPlaying` and `Seek` and emits nothing, or `some (playing,
pos)` for a loaded file of length 100.  Only `"song"` can be loaded; `"broken"`
raises an internal error and every other path a file error. -/
def sampleAudio : AudioSystem (Option (Bool × Nat)) :=
  { Null := none,
    Load := fun path =>
      if path = "song" then Except.ok (some (false, 0))
      else if path = "broken" then Except.error ⟨ErrorKind.InternalError, "internal"⟩
      else Except.error ⟨ErrorKind.FileError, "cannot open"⟩,
    Update := fun f =>
      match f with
      | none => (AudioState.OTHER, none)
      | some (playing, pos) =>
        if pos = 100 then (AudioState.AT_END, some (playing, pos))
        else if playing then (AudioState.PLAYING, some (playing, pos + 1))
        else (AudioState.OTHER, some (playing, pos)),
    SetPlaying := fun f playing =>
      match f with
      | none => Except.error ⟨ErrorKind.NoAudioError, "no audio"⟩
      | some (_, pos) => Except.ok (some (playing, pos)),
    Seek := fun f pos =>
      match f with
      | none => Except.error ⟨ErrorKind.NoAudioError, "no audio"⟩
      | some (playing, _) =>
        if 100 < pos then Except.error ⟨ErrorKind.SeekError, "seek failed"⟩
        else Except.ok (some (playing, pos)),
    Emit := fun f path _ =>
      match f with
      | none => none
      | some (playing, pos) =>
        if path = "/control/state" then
          some (Response.Res "Entry" path (if playing then "Playing" else "Stopped"))
        else if path = "/player/file" then some (Response.Res "Entry" path "song")
        else if path = "/player/time/elapsed" then some (Response.Res "Entry" path (toString pos))
        else none }

/-- The audio system `sampleAudio`, except that its loaded files cannot seek at
all: every `Seek` on a loaded file raises `SeekError`. -/
def unseekableAudio : AudioSystem (Option (Bool × Nat)) :=
  { sampleAudio with
    Seek := fun f _ =>
      match f with
      | none => Except.error ⟨ErrorKind.NoAudioError, "no audio"⟩
      | some _ => Except.error ⟨ErrorKind.SeekError, "seek failed"⟩ }

/-- A freshly constructed player with a sink attached. -/
def samplePlayer : Player (Option (Bool × Nat)) :=
  (Player.new sampleAudio).SetSink

/-- A running player with a sink attached and a file loaded. -/
def loadedPlayer : Player (Option (Bool × Nat)) :=
  { file := some (false, 0), is_running := true, sink := some [], calls := [] }

/-- A player that has quit. -/
def stoppedPlayer : Player (Option (Bool × Nat)) :=
  { file := none, is_running := false, sink := some [], calls := [] }

/-- A running player with a sink attached whose file is playing and has
reached its end. -/
def endedPlayer : Player (Option (Bool × Nat)) :=
  { file := some (true, 100), is_running := true, sink := some [], calls := [] }

/-- A running player with a sink attached whose file is playing, at position
7. -/
def playingPlayer : Player (Option (Bool × Nat)) :=
  { file := some (true, 7), is_running := true, sink := some [], calls := [] }

/-- An audio output whose state is its position, never halted; each update
advances it by 250000 microseconds. -/
def sampleOutput : Legacy.AudioOutput Int :=
  { CurrentPosition := fun a => a,
    IsHalted := fun _ => false,
    Update := fun a => (true, a + 250000) }

/-- A freshly constructed listener-based player that has an audio output and
is playing, no position listener having been registered. -/
def unregisteredPlayer : Legacy.Player Int String :=
  { (Legacy.Player.new : Legacy.Player Int String) with
    current_state := Legacy.State.PLAYING, au := some 0 }

/-- A freshly constructed listener-based player with the listener `"io"`
registered for a period of half a second. -/
def registeredPlayer : Legacy.Player Int String :=
  (Legacy.Player.new : Legacy.Player Int String).RegisterPositionListener (some "io") 500000

/-! ## Properties of the resource table and of `Read` -/

namespace Player

variable {τ : Type}

theorem equal_range_absent (path : String) (h : path ∉ RESOURCES.map Prod.fst) :
    RESOURCES_equal_range path = [] := by
  simp only [RESOURCES, List.map, List.mem_cons, List.mem_nil_iff, or_false, not_or] at h
  obtain ⟨h1, h2, h3, h4, h5, h6, h7, h8, h9⟩ := h
  simp [RESOURCES_equal_range, RESOURCES, List.filter, Ne.symm h1, Ne.symm h3, Ne.symm h4,
    Ne.symm h5, Ne.symm h7, Ne.symm h8, Ne.symm h9]

theorem Read_entry_state (M : Messages) (A : AudioSystem τ) (p : Player τ) (id : Nat) :
    Read M A p "/control/state" id =
      match A.Emit p.file "/control/state" (id == 0) with
      | none => (CommandResult.Failure M.MSG_NOT_FOUND,
          p.called (AudioCall.Emit "/control/state" (id == 0)))
      | some r => (CommandResult.Success,
          (p.called (AudioCall.Emit "/control/state" (id == 0))).Respond r id) := by
  cases h : A.Emit p.file "/control/state" (id == 0) <;>
  simp [Read, ReadFuel, RESOURCES_count, RESOURCES_equal_range, RESOURCES, List.filter, h]

theorem sameCore_refl (p : Player τ) : sameCore p p := ⟨rfl, rfl, rfl⟩

theorem sameCore_trans {p q r : Player τ} (h1 : sameCore p q) (h2 : sameCore q r) :
    sameCore p r :=
  ⟨h2.1.trans h1.1, h2.2.1.trans h1.2.1, h2.2.2.trans h1.2.2⟩

theorem sameCore_called (p : Player τ) (c : AudioCall) : sameCore p (p.called c) :=
  ⟨rfl, rfl, rfl⟩

theorem sameCore_Respond (p : Player τ) (r : Response) (id : Nat) :
    sameCore p (p.Respond r id) := by
  unfold Respond sameCore
  cases h : p.sink <;> simp [h]

theorem foldl_bind_none {β : Type} (f : Player τ → β → Option (Player τ)) (l : List β) :
    l.foldl (fun acc i => acc.bind (fun q => f q i)) none = none := by
  induction l with
  | nil => rfl
  | cons b l ih => simpa using ih

theorem foldl_bind_sameCore {β : Type} (f : Player τ → β → Option (Player τ))
    (hf : ∀ q b q', f q b = some q' → sameCore q q') (l : List β) :
    ∀ (p q : Player τ),
      l.foldl (fun acc i => acc.bind (fun q => f q i)) (some p) = some q → sameCore p q := by
  induction l with
  | nil =>
    intro p q h
    simp at h
    subst h
    exact sameCore_refl p
  | cons b l ih =>
    intro p q h
    simp only [List.foldl_cons, Option.some_bind] at h
    cases hb : f p b with
    | none =>
      rw [hb, foldl_bind_none] at h
      cases h
    | some p1 =>
      rw [hb] at h
      exact sameCore_trans (hf p b p1 hb) (ih p1 q h)

theorem ReadFuel_sameCore (M : Messages) (A : AudioSystem τ) :
    ∀ (fuel : Nat) (p : Player τ) (path : String) (id : Nat) (r : CommandResult × Player τ),
      ReadFuel M A fuel p path id = some r → sameCore p r.2 := by
  intro fuel
  induction fuel with
  | zero =>
    intro p path id r h
    simp [ReadFuel] at h
  | succ n ih =>
    intro p path id r h
    unfold ReadFuel at h
    simp only at h
    split at h
    · split at h
      · split at h
        · cases h
          exact sameCore_called p _
        · cases h
          exact sameCore_trans (sameCore_called p _) (sameCore_Respond _ _ _)
      · rw [Option.map_eq_some'] at h
        obtain ⟨q, hq, rfl⟩ := h
        refine sameCore_trans
          (sameCore_Respond p (Response.Res "Directory" path (toString (RESOURCES_count path))) id)
          ?_
        refine foldl_bind_sameCore
          (fun q (i : String × String) => (ReadFuel M A n q i.2 id).map Prod.snd) ?_ _ _ _ hq
        intro q1 b q2 h2
        rw [Option.map_eq_some'] at h2
        obtain ⟨r2, hr2, rfl⟩ := h2
        exact ih q1 b.2 id r2 hr2
    · cases h
      exact sameCore_refl p

theorem Read_sameCore (M : Messages) (A : AudioSystem τ) (p : Player τ) (path : String)
    (id : Nat) : sameCore p (Read M A p path id).2 := by
  unfold Read
  cases h : ReadFuel M A RESOURCES.length p path id with
  | none => exact sameCore_refl p
  | some r => exact ReadFuel_sameCore M A _ p path id r h

theorem foldl_bind_some {β : Type} (f : Player τ → β → Option (Player τ)) (l : List β)
    (hf : ∀ b ∈ l, ∀ q, ∃ q', f q b = some q') :
    ∀ p : Player τ, ∃ q, l.foldl (fun acc i => acc.bind (fun q => f q i)) (some p) = some q := by
  induction l with
  | nil => intro p; exact ⟨p, rfl⟩
  | cons b l ih =>
    intro p
    obtain ⟨p1, hp1⟩ := hf b (List.mem_cons_self b l) p
    simp only [List.foldl_cons, Option.some_bind, hp1]
    exact ih (fun b hb q => hf b (List.mem_cons_of_mem _ hb) q) p1

theorem ReadFuel_succ_some (M : Messages) (A : AudioSystem τ) (n : Nat) (path : String)
    (id : Nat)
    (hkids : (1 = RESOURCES_count path ∧
        (RESOURCES_equal_range path).head?.map Prod.snd = some "") ∨
      ∀ i ∈ RESOURCES_equal_range path, ∀ q : Player τ, ∃ r, ReadFuel M A n q i.2 id = some r)
    (p : Player τ) : ∃ r, ReadFuel M A (n + 1) p path id = some r := by
  unfold ReadFuel
  simp only
  split
  · split
    · split
      · exact ⟨_, rfl⟩
      · exact ⟨_, rfl⟩
    · rename_i hne
      rcases hkids with he | hk
      · exact absurd he hne
      · obtain ⟨q, hq⟩ := foldl_bind_some
          (fun q (i : String × String) => (ReadFuel M A n q i.2 id).map Prod.snd)
          (RESOURCES_equal_range path)
          (fun b hb q => by
            obtain ⟨r, hr⟩ := hk b hb q
            exact ⟨r.2, by simp [hr]⟩)
          (p.Respond (Response.Res "Directory" path (toString (RESOURCES_count path))) id)
        exact ⟨(CommandResult.Success, q), by simp [hq]⟩
  · exact ⟨_, rfl⟩

/-- With fuel for the four levels of the table, `ReadFuel` always returns. -/
theorem ReadFuel_some (M : Messages) (A : AudioSystem τ) (n : Nat) (p : Player τ)
    (path : String) (id : Nat) : ∃ r, ReadFuel M A (n + 4) p path id = some r := by
  have leaf : ∀ (m : Nat) (s : String), s ≠ "/" → s ≠ "/control" → s ≠ "/player" →
      s ≠ "/player/time" → ∀ q : Player τ, ∃ r, ReadFuel M A (m + 1) q s id = some r := by
    intro m s h1 h2 h3 h4 q
    apply ReadFuel_succ_some
    by_cases e1 : s = "/control/state"
    · subst e1; left; decide
    by_cases e2 : s = "/player/file"
    · subst e2; left; decide
    by_cases e3 : s = "/player/time/elapsed"
    · subst e3; left; decide
    right
    intro i hi
    have : RESOURCES_equal_range s = [] := by
      apply equal_range_absent
      simp [RESOURCES, h1, h2, h3, h4, e1, e2, e3]
    rw [this] at hi
    cases hi
  have time : ∀ (m : Nat) (q : Player τ),
      ∃ r, ReadFuel M A (m + 2) q "/player/time" id = some r := by
    intro m q
    apply ReadFuel_succ_some
    right
    intro i hi
    have hi2 : i.2 = "/player/time/elapsed" := by
      simp [RESOURCES_equal_range, RESOURCES, List.filter] at hi
      rw [hi]
    rw [hi2]
    exact leaf m _ (by decide) (by decide) (by decide) (by decide)
  have control : ∀ (m : Nat) (q : Player τ),
      ∃ r, ReadFuel M A (m + 2) q "/control" id = some r := by
    intro m q
    apply ReadFuel_succ_some
    right
    intro i hi
    have hi2 : i.2 = "/control/state" := by
      simp [RESOURCES_equal_range, RESOURCES, List.filter] at hi
      rw [hi]
    rw [hi2]
    exact leaf m _ (by decide) (by decide) (by decide) (by decide)
  have player : ∀ (m : Nat) (q : Player τ),
      ∃ r, ReadFuel M A (m + 3) q "/player" id = some r := by
    intro m q
    apply ReadFuel_succ_some
    right
    intro i hi
    have hi2 : i.2 = "/player/file" ∨ i.2 = "/player/time" := by
      simp [RESOURCES_equal_range, RESOURCES, List.filter] at hi
      rcases hi with hi | hi <;> rw [hi] <;> simp
    rcases hi2 with hi2 | hi2 <;> rw [hi2]
    · exact leaf (m + 1) _ (by decide) (by decide) (by decide) (by decide)
    · exact time m
  by_cases h1 : path = "/"
  · subst h1
    apply ReadFuel_succ_some
    right
    intro i hi
    have hi2 : i.2 = "/control" ∨ i.2 = "/player" := by
      simp [RESOURCES_equal_range, RESOURCES, List.filter] at hi
      rcases hi with hi | hi <;> rw [hi] <;> simp
    rcases hi2 with hi2 | hi2 <;> rw [hi2]
    · exact control (n + 1)
    · exact player n
  by_cases h2 : path = "/control"
  · subst h2; exact control (n + 2) p
  by_cases h3 : path = "/player"
  · subst h3; exact player (n + 1) p
  by_cases h4 : path = "/player/time"
  · subst h4; exact time (n + 2) p
  exact leaf (n + 3) path h1 h2 h3 h4 p

/-- The method `Read` always returns: its bound on the recursion is never
reached. -/
theorem Read_eq_ReadFuel (M : Messages) (A : AudioSystem τ) (p : Player τ) (path : String)
    (id : Nat) : ReadFuel M A RESOURCES.length p path id = some (Read M A p path id) := by
  obtain ⟨r, hr⟩ := ReadFuel_some M A 5 p path id
  have h9 : RESOURCES.length = 5 + 4 := by decide
  unfold Read
  rw [h9, hr]
  rfl

end Player

/-! ## Properties of the commands -/

namespace Player

variable {τ : Type}

theorem count_eq_zero_of_absent (path : String) (h : path ∉ RESOURCES.map Prod.fst) :
    RESOURCES_count path = 0 := by
  simp [RESOURCES_count, equal_range_absent path h]

theorem count_pos_of_mem (path : String) (h : path ∈ RESOURCES.map Prod.fst) :
    0 < RESOURCES_count path := by
  simp only [RESOURCES, List.map, List.mem_cons, List.mem_nil_iff, or_false] at h
  rcases h with h | h | h | h | h | h | h | h | h <;> subst h <;> decide

theorem Read_absent (M : Messages) (A : AudioSystem τ) (p : Player τ) (path : String)
    (id : Nat) (h : path ∉ RESOURCES.map Prod.fst) :
    Read M A p path id = (CommandResult.Failure M.MSG_NOT_FOUND, p) := by
  have h9 : RESOURCES.length = 8 + 1 := by decide
  rw [Read, h9, ReadFuel]
  simp [count_eq_zero_of_absent path h]

/-- C1: for a path that is not a key of the resource table, and for every
player state, client id and payload, `Read`, `Write` and `Delete` each return
`Failure` with the not-found message; none of them raises or changes the
player. -/
theorem C1_unknown_path_not_found (M : Messages) (A : AudioSystem τ) (p : Player τ)
    (path payload : String) (id : Nat) (h : path ∉ RESOURCES.map Prod.fst) :
    Read M A p path id = (CommandResult.Failure M.MSG_NOT_FOUND, p) ∧
    Write M A p path payload = (Except.ok (CommandResult.Failure M.MSG_NOT_FOUND), p) ∧
    Delete M A p path = (Except.ok (CommandResult.Failure M.MSG_NOT_FOUND), p) := by
  have hc := count_eq_zero_of_absent path h
  refine ⟨Read_absent M A p path id h, ?_, ?_⟩
  all_goals
    simp only [RESOURCES, List.map, List.mem_cons, List.mem_nil_iff, or_false, not_or] at h
    obtain ⟨-, -, -, h4, -, -, h7, -, h9⟩ := h
    simp [Write, Delete, ResourceFailure, hc, Ne.symm h4, Ne.symm h7, Ne.symm h9]

/-- C1 at the path `/nowhere`, absent from the table. -/
theorem C1_unknown_path_not_found_witness :
    "/nowhere" ∉ RESOURCES.map Prod.fst ∧
    (Read sampleMessages sampleAudio loadedPlayer "/nowhere" 7 =
        (CommandResult.Failure sampleMessages.MSG_NOT_FOUND, loadedPlayer) ∧
      Write sampleMessages sampleAudio loadedPlayer "/nowhere" "Playing" =
        (Except.ok (CommandResult.Failure sampleMessages.MSG_NOT_FOUND), loadedPlayer) ∧
      Delete sampleMessages sampleAudio loadedPlayer "/nowhere" =
        (Except.ok (CommandResult.Failure sampleMessages.MSG_NOT_FOUND), loadedPlayer)) :=
  ⟨by decide,
    C1_unknown_path_not_found sampleMessages sampleAudio loadedPlayer "/nowhere" "Playing" 7
      (by decide)⟩

/-- C2, refuted: writing to the directory `/control` and deleting the root
return `Failure` with the invalid-action message, not `Invalid`. -/
theorem C2_directory_verbs_not_invalid :
    (Write sampleMessages sampleAudio loadedPlayer "/control" "Playing").1 =
        Except.ok (CommandResult.Failure sampleMessages.MSG_INVALID_ACTION) ∧
    (Write sampleMessages sampleAudio loadedPlayer "/control" "Playing").1 ≠
        Except.ok (CommandResult.Invalid sampleMessages.MSG_INVALID_ACTION) ∧
    (Delete sampleMessages sampleAudio loadedPlayer "/").1 =
        Except.ok (CommandResult.Failure sampleMessages.MSG_INVALID_ACTION) ∧
    (Delete sampleMessages sampleAudio loadedPlayer "/").1 ≠
        Except.ok (CommandResult.Invalid sampleMessages.MSG_INVALID_ACTION) := by
  decide

/-- C2, amended: for a path that is a key of the resource table but none of
`/control/state`, `/player/file`, `/player/time/elapsed`, `Write` with any
payload and `Delete` return `Failure` with the invalid-action message and
leave the player unchanged. -/
theorem C2_existing_path_invalid_action_failure (M : Messages) (A : AudioSystem τ)
    (p : Player τ) (path payload : String) (h : path ∈ RESOURCES.map Prod.fst)
    (h1 : path ≠ "/control/state") (h2 : path ≠ "/player/file")
    (h3 : path ≠ "/player/time/elapsed") :
    Write M A p path payload = (Except.ok (CommandResult.Failure M.MSG_INVALID_ACTION), p) ∧
    Delete M A p path = (Except.ok (CommandResult.Failure M.MSG_INVALID_ACTION), p) := by
  have hc := count_pos_of_mem path h
  simp [Write, Delete, ResourceFailure, hc, Ne.symm h1, Ne.symm h2, Ne.symm h3]

/-- C2, amended, at the directory `/player/time`. -/
theorem C2_existing_path_invalid_action_failure_witness :
    "/player/time" ∈ RESOURCES.map Prod.fst ∧
    Write sampleMessages sampleAudio loadedPlayer "/player/time" "0" =
      (Except.ok (CommandResult.Failure sampleMessages.MSG_INVALID_ACTION), loadedPlayer) ∧
    Delete sampleMessages sampleAudio loadedPlayer "/player/time" =
      (Except.ok (CommandResult.Failure sampleMessages.MSG_INVALID_ACTION), loadedPlayer) :=
  ⟨by decide,
    C2_existing_path_invalid_action_failure sampleMessages sampleAudio loadedPlayer
      "/player/time" "0" (by decide) (by decide) (by decide) (by decide)⟩

theorem Eject_file (M : Messages) (A : AudioSystem τ) (p : Player τ) :
    (Eject M A p).2.file = A.Null ∧ (Eject M A p).2.is_running = p.is_running ∧
    (Eject M A p).2.sink.isSome = p.sink.isSome := by
  have h := Read_sameCore M A { p.called AudioCall.Null with file := A.Null } "/control/state" 0
  exact ⟨h.1, h.2.1, h.2.2⟩

/-- C3: from every player state (running in particular), writing `Quitting`
to `/control/state` returns `Success` and leaves the running flag false with
the null audio as the current file; and in every state whose running flag is
false `RunCommand` returns `Failure` (with the closing message) for every word
vector and client id and leaves the player as it was: file, running flag and
sink unchanged, nothing sent, nothing called.  In particular every command
after the quit is refused. -/
theorem C3_quit_then_refuse (M : Messages) (A : AudioSystem τ) (p : Player τ)
    (cmd : List String) (id : Nat) :
    ((Write M A p "/control/state" "Quitting").1 = Except.ok CommandResult.Success ∧
      (Write M A p "/control/state" "Quitting").2.is_running = false ∧
      (Write M A p "/control/state" "Quitting").2.file = A.Null) ∧
    (p.is_running = false →
      RunCommand M A p cmd id =
        (Except.ok (CommandResult.Failure M.MSG_CMD_PLAYER_CLOSING), p)) ∧
    RunCommand M A (Write M A p "/control/state" "Quitting").2 cmd id =
      (Except.ok (CommandResult.Failure M.MSG_CMD_PLAYER_CLOSING),
        (Write M A p "/control/state" "Quitting").2) := by
  have hw : Write M A p "/control/state" "Quitting" = noRaise (Quit M A p) := by
    simp [Write]
  have hrun : ∀ q : Player τ, q.is_running = false →
      RunCommand M A q cmd id =
        (Except.ok (CommandResult.Failure M.MSG_CMD_PLAYER_CLOSING), q) := by
    intro q hq
    simp [RunCommand, hq]
  have hq : (Quit M A p).2.is_running = false := rfl
  have hf : (Quit M A p).2.file = A.Null := (Eject_file M A p).1
  refine ⟨⟨?_, ?_, ?_⟩, hrun p, ?_⟩
  · rw [hw]; rfl
  · rw [hw]; exact hq
  · rw [hw]; exact hf
  · exact hrun _ (by rw [hw]; exact hq)

/-- C3 on a player that has quit, refusing `read tag /`. -/
theorem C3_quit_then_refuse_witness :
    stoppedPlayer.is_running = false ∧
    RunCommand sampleMessages sampleAudio stoppedPlayer ["read", "tag", "/"] 3 =
      (Except.ok (CommandResult.Failure sampleMessages.MSG_CMD_PLAYER_CLOSING), stoppedPlayer) :=
  ⟨rfl,
    (C3_quit_then_refuse sampleMessages sampleAudio stoppedPlayer ["read", "tag", "/"] 3).2.1
      rfl⟩

/-- C4: while the player is running, `RunCommand` is the dispatcher: for every
tag, `read tag p` is `Read(p, id)`, `delete tag p` is `Delete(p)` and
`write tag p x` is `Write(p, x)`, with the same result and the same final
state, so the tag has no influence; every other word vector returns `Invalid`
with the invalid-command message and leaves the player as it was. -/
theorem C4_RunCommand_dispatch (M : Messages) (A : AudioSystem τ) (p : Player τ) (id : Nat)
    (h : p.is_running = true) :
    (∀ tag path : String,
      RunCommand M A p ["read", tag, path] id = noRaise (Read M A p path id)) ∧
    (∀ tag path : String, RunCommand M A p ["delete", tag, path] id = Delete M A p path) ∧
    (∀ tag path payload : String,
      RunCommand M A p ["write", tag, path, payload] id = Write M A p path payload) ∧
    (∀ cmd : List String,
      (¬ ∃ tag path, cmd = ["read", tag, path]) →
      (¬ ∃ tag path, cmd = ["delete", tag, path]) →
      (¬ ∃ tag path payload, cmd = ["write", tag, path, payload]) →
      RunCommand M A p cmd id = (Except.ok (CommandResult.Invalid MSG_CMD_INVALID), p)) := by
  refine ⟨?_, ?_, ?_, ?_⟩
  · intro tag path
    simp [RunCommand, h]
  · intro tag path
    simp [RunCommand, h]
  · intro tag path payload
    simp [RunCommand, h]
  · intro cmd hr hd hw
    match cmd with
    | [] => simp [RunCommand, h]
    | [w] => simp [RunCommand, h]
    | [w, a] => simp [RunCommand, h]
    | [w, a, b] =>
      have h1 : ¬ "read" = w := fun e => hr ⟨a, b, by rw [e]⟩
      have h2 : ¬ "delete" = w := fun e => hd ⟨a, b, by rw [e]⟩
      simp [RunCommand, h, h1, h2]
    | [w, a, b, c] =>
      have h3 : ¬ "write" = w := fun e => hw ⟨a, b, c, by rw [e]⟩
      simp [RunCommand, h, h3]
    | w :: a :: b :: c :: d :: rest => simp [RunCommand, h]

/-- C4 on a running player: the words `Read tag /` (a verb in the wrong case)
are answered `Invalid`, and the three verbs dispatch. -/
theorem C4_RunCommand_dispatch_witness :
    loadedPlayer.is_running = true ∧
    RunCommand sampleMessages sampleAudio loadedPlayer ["Read", "tag", "/"] 4 =
      (Except.ok (CommandResult.Invalid MSG_CMD_INVALID), loadedPlayer) ∧
    RunCommand sampleMessages sampleAudio loadedPlayer ["read", "tag", "/"] 4 =
      noRaise (Read sampleMessages sampleAudio loadedPlayer "/" 4) :=
  ⟨rfl,
    (C4_RunCommand_dispatch sampleMessages sampleAudio loadedPlayer 4 rfl).2.2.2
      ["Read", "tag", "/"] (by simp) (by simp) (by simp),
    (C4_RunCommand_dispatch sampleMessages sampleAudio loadedPlayer 4 rfl).1 "tag" "/"⟩

/-- C5: `Load("")` returns `Invalid` (with the empty-path message) and leaves
the player exactly as it was: the same file, the same running flag, nothing
sent to the sink and no call made on the audio system. -/
theorem C5_Load_empty_path (M : Messages) (A : AudioSystem τ) (p : Player τ) :
    Load M A p "" = (Except.ok (CommandResult.Invalid M.MSG_LOAD_EMPTY_PATH), p) := by
  simp [Load, String.isEmpty_iff]

/-- C6: for a non-empty path whose `audio.Load` raises a `FileError`, from
every player state, `Load` returns `Failure` with that error's message, raises
nothing, and leaves the null audio as the current file; the running flag and
the sink pointer are as before. -/
theorem C6_Load_file_error (M : Messages) (A : AudioSystem τ) (p : Player τ) (path : String)
    (e : Error) (hpath : path ≠ "") (hload : A.Load path = Except.error e)
    (hkind : e.kind = ErrorKind.FileError) :
    (Load M A p path).1 = Except.ok (CommandResult.Failure e.Message) ∧
    (Load M A p path).2.file = A.Null ∧
    (Load M A p path).2.is_running = p.is_running ∧
    (Load M A p path).2.sink.isSome = p.sink.isSome := by
  have hne : path.isEmpty = false := by
    rw [Bool.eq_false_iff]
    intro hh
    exact hpath ((String.isEmpty_iff path).1 hh)
  have hL : Load M A p path =
      (Except.ok (CommandResult.Failure e.Message),
        (Eject M A (({ p.called AudioCall.Null with file := A.Null } : Player τ).called
          (AudioCall.Load path))).2) := by
    simp [Load, hne, hload, hkind]
  rw [hL]
  have hE := Eject_file M A (({ p.called AudioCall.Null with file := A.Null } : Player τ).called
    (AudioCall.Load path))
  exact ⟨rfl, hE.1, hE.2.1, hE.2.2⟩

/-- C6 on a player with a file loaded, opening a file that does not exist. -/
theorem C6_Load_file_error_witness :
    "/nonexistent/file" ≠ "" ∧
    sampleAudio.Load "/nonexistent/file" = Except.error ⟨ErrorKind.FileError, "cannot open"⟩ ∧
    (Load sampleMessages sampleAudio loadedPlayer "/nonexistent/file").1 =
      Except.ok (CommandResult.Failure "cannot open") ∧
    (Load sampleMessages sampleAudio loadedPlayer "/nonexistent/file").2.file =
      sampleAudio.Null :=
  ⟨by decide, rfl,
    (C6_Load_file_error sampleMessages sampleAudio loadedPlayer "/nonexistent/file"
      ⟨ErrorKind.FileError, "cannot open"⟩ (by decide) rfl rfl).1,
    (C6_Load_file_error sampleMessages sampleAudio loadedPlayer "/nonexistent/file"
      ⟨ErrorKind.FileError, "cannot open"⟩ (by decide) rfl rfl).2.1⟩

theorem length_takeWhile_lt {α : Type} (q : α → Bool) (l : List α)
    (h : ∃ c ∈ l, q c = false) : (l.takeWhile q).length < l.length := by
  induction l with
  | nil =>
    obtain ⟨c, hc, -⟩ := h
    cases hc
  | cons a l ih =>
    cases ha : q a with
    | false => simp [List.takeWhile, ha]
    | true =>
      obtain ⟨c, hc, hqc⟩ := h
      rcases List.mem_cons.1 hc with rfl | hmem
      · rw [ha] at hqc; cases hqc
      · have := ih ⟨c, hmem, hqc⟩
        simp [List.takeWhile, ha, this]

theorem isdigit_not_space_sign (d : Char) (hd : isdigit d = true) :
    isspace d = false ∧ d ≠ '-' ∧ d ≠ '+' := by
  simp only [isdigit, Bool.and_eq_true, decide_eq_true_eq] at hd
  refine ⟨?_, ?_, ?_⟩
  · simp only [isspace, Bool.or_eq_false_iff, Bool.and_eq_false_iff, decide_eq_false_iff_not]
    omega
  · rintro rfl
    simp at hd
  · rintro rfl
    simp at hd

/-- A string that is empty, or starts with a character that is no digit, sign
or white space, is not parsed. -/
theorem SeekParse_no_number (M : Messages) (s : String)
    (h : s = "" ∨ ∃ c, s.data.head? = some c ∧ isdigit c = false ∧ isspace c = false ∧
      c ≠ '+' ∧ c ≠ '-') :
    SeekParse M s = Except.error ⟨ErrorKind.SeekError, M.MSG_SEEK_INVALID_VALUE⟩ := by
  have hs : stoull s = Except.error StdException.invalid_argument := by
    rcases h with rfl | ⟨c, hc, hd, hsp, hplus, hminus⟩
    · rfl
    · obtain ⟨cs⟩ := s
      cases cs with
      | nil => simp at hc
      | cons a rest =>
        simp only [List.head?_cons, Option.some.injEq] at hc
        subst hc
        simp [stoull, List.takeWhile, List.dropWhile, hsp, hd, hplus, hminus]
  simp [SeekParse, hs]

/-- A string that starts with a digit and holds a character that is no digit
is not parsed. -/
theorem SeekParse_trailing_garbage (M : Messages) (s : String)
    (h : ∃ d, s.data.head? = some d ∧ isdigit d = true ∧ ∃ c ∈ s.data, isdigit c = false) :
    SeekParse M s = Except.error ⟨ErrorKind.SeekError, M.MSG_SEEK_INVALID_VALUE⟩ := by
  obtain ⟨d, hd0, hd, hc⟩ := h
  obtain ⟨cs⟩ := s
  cases cs with
  | nil => simp at hd0
  | cons a rest =>
    simp only [List.head?_cons, Option.some.injEq] at hd0
    subst hd0
    obtain ⟨hsp, hminus, hplus⟩ := isdigit_not_space_sign a hd
    have hlen := length_takeWhile_lt isdigit (a :: rest) hc
    have hlen2 : (List.takeWhile isdigit (a :: rest)).length ≠ (String.mk (a :: rest)).length := by
      simp only [String.length]
      omega
    simp only [List.takeWhile, hd] at hlen2
    unfold SeekParse stoull
    simp only [List.takeWhile, List.dropWhile, hsp, hd, List.head?_cons, Option.some.injEq,
      hminus, hplus, or_self, if_false, List.drop_zero, List.isEmpty_cons, Bool.false_eq_true,
      decide_False, List.length_nil, zero_add]
    split
    · rfl
    · rename_i pos cpos heq
      split at heq
      · cases heq
      · simp only [Except.ok.injEq, Prod.mk.injEq] at heq
        obtain ⟨-, h2⟩ := heq
        rw [if_pos]
        rw [← h2]
        exact hlen2

/-- C7: for a string that is empty, or begins with a character that is no
decimal digit, sign or white space, or begins with a decimal digit and holds a
character that is no decimal digit, `Seek` returns `Invalid` with the
invalid-seek-value message in every player state and leaves the player exactly
as it was: nothing is called on the file and nothing is sent. -/
theorem C7_Seek_rejects_malformed (M : Messages) (A : AudioSystem τ) (p : Player τ)
    (s : String)
    (h : s = "" ∨
      (∃ c, s.data.head? = some c ∧ isdigit c = false ∧ isspace c = false ∧
        c ≠ '+' ∧ c ≠ '-') ∨
      (∃ d, s.data.head? = some d ∧ isdigit d = true ∧ ∃ c ∈ s.data, isdigit c = false)) :
    Seek M A p s = (Except.ok (CommandResult.Invalid M.MSG_SEEK_INVALID_VALUE), p) := by
  have hp : SeekParse M s = Except.error ⟨ErrorKind.SeekError, M.MSG_SEEK_INVALID_VALUE⟩ := by
    rcases h with h | h | h
    · exact SeekParse_no_number M s (Or.inl h)
    · exact SeekParse_no_number M s (Or.inr h)
    · exact SeekParse_trailing_garbage M s h
  simp [Seek, hp]

/-- C7 at `abc` and at `123abc`, on a player with a file loaded. -/
theorem C7_Seek_rejects_malformed_witness :
    Seek sampleMessages sampleAudio loadedPlayer "abc" =
      (Except.ok (CommandResult.Invalid sampleMessages.MSG_SEEK_INVALID_VALUE), loadedPlayer) ∧
    Seek sampleMessages sampleAudio loadedPlayer "123abc" =
      (Except.ok (CommandResult.Invalid sampleMessages.MSG_SEEK_INVALID_VALUE), loadedPlayer) :=
  ⟨C7_Seek_rejects_malformed sampleMessages sampleAudio loadedPlayer "abc"
      (Or.inr (Or.inl ⟨'a', rfl, by decide, by decide, by decide, by decide⟩)),
    C7_Seek_rejects_malformed sampleMessages sampleAudio loadedPlayer "123abc"
      (Or.inr (Or.inr ⟨'1', rfl, by decide, 'a', by decide, by decide⟩))⟩

theorem takeWhile_eq_self_of_all {α : Type} (q : α → Bool) (l : List α)
    (h : ∀ c ∈ l, q c = true) : l.takeWhile q = l := by
  induction l with
  | nil => rfl
  | cons a l ih =>
    have ha : q a = true := h a (List.mem_cons_self a l)
    simp only [List.takeWhile, ha]
    rw [ih (fun c hc => h c (List.mem_cons_of_mem a hc))]

/-- The strings `SeekParse` is meant for: a non-empty string of decimal digits
whose value fits 64 bits is parsed to that value. -/
theorem SeekParse_digits (M : Messages) (s : String) (hne : s ≠ "")
    (hall : ∀ c ∈ s.data, isdigit c = true) (hval : digitsValue s.data < 2 ^ 64) :
    SeekParse M s = Except.ok (digitsValue s.data) := by
  obtain ⟨cs⟩ := s
  cases cs with
  | nil => exact absurd rfl hne
  | cons a rest =>
    have hd : isdigit a = true := hall a (List.mem_cons_self a rest)
    obtain ⟨hsp, hminus, hplus⟩ := isdigit_not_space_sign a hd
    have htw : List.takeWhile isdigit rest = rest :=
      takeWhile_eq_self_of_all isdigit rest (fun c hc => hall c (List.mem_cons_of_mem a hc))
    have hv : ¬ ULLONG_MAX < digitsValue (a :: rest) := by
      simp only [ULLONG_MAX]
      simp only at hval
      omega
    unfold SeekParse stoull
    simp only [List.takeWhile, List.dropWhile, hsp, hd, List.head?_cons, Option.some.injEq,
      hminus, hplus, or_self, if_false, List.drop_zero, List.isEmpty_cons, Bool.false_eq_true,
      decide_False, List.length_nil, zero_add, htw, hv]
    simp [String.length]

/-- C8, evaluated: `SeekParse` does not accept only strings of digits.  A
leading minus sign is accepted and the value negated modulo 2^64, so `-1` is
parsed as 18446744073709551615; a leading plus sign and leading white space are
accepted too; and `Seek` of `-1` on a loaded file is not answered `Invalid`. -/
theorem C8_SeekParse_accepts_sign_and_space :
    SeekParse sampleMessages "-1" = Except.ok 18446744073709551615 ∧
    SeekParse sampleMessages "+5" = Except.ok 5 ∧
    SeekParse sampleMessages " 5" = Except.ok 5 ∧
    (Seek sampleMessages sampleAudio loadedPlayer "+5").1 = Except.ok CommandResult.Success ∧
    (Seek sampleMessages sampleAudio loadedPlayer "-1").1 = Except.ok CommandResult.Success ∧
    SeekParse sampleMessages "18446744073709551616" =
      Except.error ⟨ErrorKind.SeekError, sampleMessages.MSG_SEEK_INVALID_VALUE⟩ := by
  decide

/-- C9: for a string that `SeekParse` parses to a position, when the current
file's `Seek` to that position raises `NoAudioError`, as the null audio's does,
`Seek` returns `Invalid` with the needs-loaded message; the file, the running
flag and the sink are as before, so nothing is sent, and the only call made is
that `Seek`. -/
theorem C9_Seek_needs_loaded (M : Messages) (A : AudioSystem τ) (p : Player τ) (s : String)
    (n : Nat) (e : Error) (hparse : SeekParse M s = Except.ok n)
    (hseek : A.Seek p.file n = Except.error e) (hkind : e.kind = ErrorKind.NoAudioError) :
    (Seek M A p s).1 = Except.ok (CommandResult.Invalid M.MSG_CMD_NEEDS_LOADED) ∧
    (Seek M A p s).2.file = p.file ∧
    (Seek M A p s).2.is_running = p.is_running ∧
    (Seek M A p s).2.sink = p.sink ∧
    (Seek M A p s).2.calls = p.calls ++ [AudioCall.Seek n] := by
  have hS : Seek M A p s =
      (Except.ok (CommandResult.Invalid M.MSG_CMD_NEEDS_LOADED), p.called (AudioCall.Seek n)) := by
    simp [Seek, SeekRaw, hparse, hseek, hkind]
  rw [hS]
  exact ⟨rfl, rfl, rfl, rfl, rfl⟩

/-- C9 on a fresh player, whose file is the null audio, at `123` and at the
`0` that `Delete` passes. -/
theorem C9_Seek_needs_loaded_witness :
    SeekParse sampleMessages "123" = Except.ok 123 ∧
    sampleAudio.Seek samplePlayer.file 123 = Except.error ⟨ErrorKind.NoAudioError, "no audio"⟩ ∧
    (Seek sampleMessages sampleAudio samplePlayer "123").1 =
      Except.ok (CommandResult.Invalid sampleMessages.MSG_CMD_NEEDS_LOADED) ∧
    (Seek sampleMessages sampleAudio samplePlayer "0").2.sink = samplePlayer.sink :=
  ⟨rfl, rfl,
    (C9_Seek_needs_loaded sampleMessages sampleAudio samplePlayer "123" 123
      ⟨ErrorKind.NoAudioError, "no audio"⟩ rfl rfl rfl).1,
    (C9_Seek_needs_loaded sampleMessages sampleAudio samplePlayer "0" 0
      ⟨ErrorKind.NoAudioError, "no audio"⟩ rfl rfl rfl).2.2.2.1⟩

/-- C10, refuted: on a loaded file that cannot seek at all, `Seek("5")` fails
in the decoder, the end-of-track transition stops playback and then its own
rewind to zero raises `SeekError`, which leaves `Seek`: the result is that
error, not `Success`, and the sink has received the control state only, no
`END`. -/
theorem C10_rewind_error_propagates :
    SeekParse sampleMessages "5" = Except.ok 5 ∧
    unseekableAudio.Seek loadedPlayer.file 5 =
      Except.error ⟨ErrorKind.SeekError, "seek failed"⟩ ∧
    (Seek sampleMessages unseekableAudio loadedPlayer "5").1 =
      Except.error ⟨ErrorKind.SeekError, "seek failed"⟩ ∧
    (Seek sampleMessages unseekableAudio loadedPlayer "5").1 ≠
      Except.ok CommandResult.Success ∧
    (Seek sampleMessages unseekableAudio loadedPlayer "5").2.sink =
      some [(Response.Res "Entry" "/control/state" "Stopped", 0)] := by
  decide

/-- C10, amended: for a string that `SeekParse` parses to a position, when the
current file's `Seek` to that position raises `SeekError`, `Seek` runs the
end-of-track transition `End` and has its outcome.  If the file's stop
succeeds and the rewind `Seek(0)` succeeds, then `Seek` returns `Success`, the file is
the rewound one, the running flag is as before and, when a sink is attached,
the last response it received is `END` addressed to 0 (no sink stays no sink).
If the file's stop succeeds and the rewind raises, that error leaves `Seek`, and
the player is left as the stop step left it, with the failed call recorded:
nothing more is sent, so no `END`. -/
theorem C10_Seek_error_runs_End (M : Messages) (A : AudioSystem τ) (p : Player τ)
    (s : String) (n : Nat) (e : Error) (hparse : SeekParse M s = Except.ok n)
    (hseek : A.Seek p.file n = Except.error e) (hkind : e.kind = ErrorKind.SeekError) :
    (Seek M A p s =
      match End M A (p.called (AudioCall.Seek n)) with
      | (Except.ok _, p2) => (Except.ok CommandResult.Success, p2)
      | (Except.error e2, p2) => (Except.error e2, p2)) ∧
    (∀ f1 f2 : τ, A.SetPlaying p.file false = Except.ok f1 → A.Seek f1 0 = Except.ok f2 →
      (Seek M A p s).1 = Except.ok CommandResult.Success ∧
      (Seek M A p s).2.file = f2 ∧
      (Seek M A p s).2.is_running = p.is_running ∧
      (p.sink = none → (Seek M A p s).2.sink = none) ∧
      (p.sink ≠ none → ∃ log,
        (Seek M A p s).2.sink = some (log ++ [(({ code := "END", args := [] } : Response), 0)]))) ∧
    (∀ (f1 : τ) (e2 : Error), A.SetPlaying p.file false = Except.ok f1 →
      A.Seek f1 0 = Except.error e2 →
      Seek M A p s =
        (Except.error e2,
          (SetPlaying M A (p.called (AudioCall.Seek n)) false).2.called (AudioCall.Seek 0))) := by
  have hS : Seek M A p s =
      match End M A (p.called (AudioCall.Seek n)) with
      | (Except.ok _, p2) => (Except.ok CommandResult.Success, p2)
      | (Except.error e2, p2) => (Except.error e2, p2) := by
    have hne2 : ¬ ErrorKind.SeekError = ErrorKind.NoAudioError := by decide
    simp only [Seek, SeekRaw, hparse, hseek, hkind, hne2, if_true, if_false]
  refine ⟨hS, ?_, ?_⟩
  · intro f1 f2 hstop hrew
    -- the state after the stop step
    have hSP : SetPlaying M A (p.called (AudioCall.Seek n)) false =
        (Except.ok CommandResult.Success,
          (Read M A { (p.called (AudioCall.Seek n)).called (AudioCall.SetPlaying false) with
            file := f1 } "/control/state" 0).2) := by
      have : A.SetPlaying (p.called (AudioCall.Seek n)).file false = Except.ok f1 := hstop
      simp only [SetPlaying, this]
    have hc1 := Read_sameCore M A
      ({ (p.called (AudioCall.Seek n)).called (AudioCall.SetPlaying false) with file := f1 } :
        Player τ) "/control/state" 0
    generalize (Read M A { (p.called (AudioCall.Seek n)).called (AudioCall.SetPlaying false) with
            file := f1 } "/control/state" 0).2 = q1 at hSP hc1
    have hq1 : A.Seek q1.file 0 = Except.ok f2 := by rw [hc1.1]; exact hrew
    have hSR : SeekRaw M A q1 0 =
        (Except.ok (),
          (Read M A { q1.called (AudioCall.Seek 0) with file := f2 }
            "/player/time/elapsed" 0).2) := by
      simp only [SeekRaw, hq1]
    have hc2 := Read_sameCore M A
      ({ q1.called (AudioCall.Seek 0) with file := f2 } : Player τ) "/player/time/elapsed" 0
    generalize (Read M A { q1.called (AudioCall.Seek 0) with file := f2 }
            "/player/time/elapsed" 0).2 = q2 at hSR hc2
    have hfile : q2.file = f2 := hc2.1
    have hrun : q2.is_running = p.is_running := hc2.2.1.trans hc1.2.1
    have hsink : q2.sink.isSome = p.sink.isSome := hc2.2.2.trans hc1.2.2
    have hE : End M A (p.called (AudioCall.Seek n)) =
        if q2.sink.isNone then (Except.ok (), q2)
        else (Except.ok (), q2.Respond { code := "END", args := [] } 0) := by
      simp only [End, hSP, hSR]
    rw [hS, hE]
    cases hq : q2.sink with
    | none =>
      have hp : p.sink = none := by
        rw [hq] at hsink
        cases hps : p.sink with
        | none => rfl
        | some l => rw [hps] at hsink; cases hsink
      simp [hfile, hrun, hq, hp]
    | some l =>
      have hp : p.sink ≠ none := by
        rw [hq] at hsink
        intro hps
        rw [hps] at hsink
        cases hsink
      simp [Respond, hfile, hrun, hq, hp]
  · intro f1 e2 hstop hrew
    have hSP : SetPlaying M A (p.called (AudioCall.Seek n)) false =
        (Except.ok CommandResult.Success,
          (Read M A { (p.called (AudioCall.Seek n)).called (AudioCall.SetPlaying false) with
            file := f1 } "/control/state" 0).2) := by
      have : A.SetPlaying (p.called (AudioCall.Seek n)).file false = Except.ok f1 := hstop
      simp only [SetPlaying, this]
    have hc1 := Read_sameCore M A
      ({ (p.called (AudioCall.Seek n)).called (AudioCall.SetPlaying false) with file := f1 } :
        Player τ) "/control/state" 0
    generalize (Read M A { (p.called (AudioCall.Seek n)).called (AudioCall.SetPlaying false) with
            file := f1 } "/control/state" 0).2 = q1 at hSP hc1
    have hq1 : A.Seek q1.file 0 = Except.error e2 := by rw [hc1.1]; exact hrew
    have hSR : SeekRaw M A q1 0 = (Except.error e2, q1.called (AudioCall.Seek 0)) := by
      simp only [SeekRaw, hq1]
    rw [hS]
    simp only [End, hSP, hSR]

/-- C10, amended, on a loaded file of length 100: `Seek("500")` is out of
range, the transition rewinds to zero and `END` is sent last. -/
theorem C10_Seek_error_runs_End_witness :
    SeekParse sampleMessages "500" = Except.ok 500 ∧
    sampleAudio.Seek loadedPlayer.file 500 =
      Except.error ⟨ErrorKind.SeekError, "seek failed"⟩ ∧
    (Seek sampleMessages sampleAudio loadedPlayer "500").1 =
      Except.ok CommandResult.Success ∧
    (Seek sampleMessages sampleAudio loadedPlayer "500").2.file = some (false, 0) :=
  ⟨rfl, rfl,
    ((C10_Seek_error_runs_End sampleMessages sampleAudio loadedPlayer "500" 500
      ⟨ErrorKind.SeekError, "seek failed"⟩ rfl rfl rfl).2.1
      (some (false, 0)) (some (false, 0)) rfl rfl).1,
    ((C10_Seek_error_runs_End sampleMessages sampleAudio loadedPlayer "500" 500
      ⟨ErrorKind.SeekError, "seek failed"⟩ rfl rfl rfl).2.1
      (some (false, 0)) (some (false, 0)) rfl rfl).2.1⟩

/-! ### What `Read` adds to the sink and to the record of calls -/

theorem extend_nil (p : Player τ) : p.extend [] [] = p := by
  obtain ⟨f, r, s, c⟩ := p
  cases s <;> simp [extend]

theorem extend_extend (p : Player τ) (a c : List (Response × Nat)) (b d : List AudioCall) :
    (p.extend a b).extend c d = p.extend (a ++ c) (b ++ d) := by
  obtain ⟨f, r, s, cs⟩ := p
  cases s <;> simp [extend]

theorem extend_file (p : Player τ) (a : List (Response × Nat)) (b : List AudioCall) :
    (p.extend a b).file = p.file := rfl

theorem Respond_eq_extend (p : Player τ) (r : Response) (id : Nat) :
    p.Respond r id = p.extend [(r, id)] [] := by
  obtain ⟨f, run, s, cs⟩ := p
  cases s <;> simp [Respond, extend]

theorem called_eq_extend (p : Player τ) (c : AudioCall) : p.called c = p.extend [] [c] := by
  obtain ⟨f, run, s, cs⟩ := p
  cases s <;> simp [called, extend]

theorem foldl_bind_frame {β : Type} (f : Player τ → β → Option (Player τ)) (id : Nat)
    (l : List β)
    (hf : ∀ q b q', f q b = some q' → ∃ out cs, q' = q.extend out cs ∧
      (∀ x ∈ out, x.2 = id) ∧ ∀ p', p'.file = q.file → f p' b = some (p'.extend out cs)) :
    ∀ (p q : Player τ),
      l.foldl (fun acc i => acc.bind (fun q => f q i)) (some p) = some q →
      ∃ out cs, q = p.extend out cs ∧ (∀ x ∈ out, x.2 = id) ∧
        ∀ p', p'.file = p.file →
          l.foldl (fun acc i => acc.bind (fun q => f q i)) (some p') =
            some (p'.extend out cs) := by
  induction l with
  | nil =>
    intro p q h
    simp only [List.foldl_nil, Option.some.injEq] at h
    subst h
    refine ⟨[], [], (extend_nil p).symm, by simp, ?_⟩
    intro p' _
    simp [extend_nil]
  | cons b l ih =>
    intro p q h
    simp only [List.foldl_cons, Option.some_bind] at h
    cases hb : f p b with
    | none =>
      rw [hb, foldl_bind_none] at h
      cases h
    | some p1 =>
      rw [hb] at h
      obtain ⟨o1, c1, e1, a1, s1⟩ := hf p b p1 hb
      obtain ⟨o2, c2, e2, a2, s2⟩ := ih p1 q h
      refine ⟨o1 ++ o2, c1 ++ c2, ?_, ?_, ?_⟩
      · rw [e2, e1, extend_extend]
      · intro x hx
        rcases List.mem_append.1 hx with hx | hx
        · exact a1 x hx
        · exact a2 x hx
      · intro p' hp'
        simp only [List.foldl_cons, Option.some_bind]
        rw [s1 p' hp', s2 (p'.extend o1 c1) (by rw [extend_file, hp', e1, extend_file]),
          extend_extend]

theorem ReadFuel_frame (M : Messages) (A : AudioSystem τ) :
    ∀ (fuel : Nat) (p : Player τ) (path : String) (id : Nat) (r : CommandResult × Player τ),
      ReadFuel M A fuel p path id = some r →
      ∃ out cs, r.2 = p.extend out cs ∧ (∀ x ∈ out, x.2 = id) ∧
        ∀ p', p'.file = p.file → ReadFuel M A fuel p' path id = some (r.1, p'.extend out cs) := by
  intro fuel
  induction fuel with
  | zero =>
    intro p path id r h
    simp [ReadFuel] at h
  | succ n ih =>
    intro p path id r h
    unfold ReadFuel at h
    simp only at h
    split at h
    · rename_i hpos
      split at h
      · rename_i hentry
        split at h
        · rename_i hemit
          cases h
          refine ⟨[], [AudioCall.Emit path (id == 0)], called_eq_extend p _, by simp, ?_⟩
          intro p' hp'
          unfold ReadFuel
          simp only [hpos, hentry, if_true, and_self, hp', hemit, called_eq_extend]
        · rename_i response hemit
          cases h
          refine ⟨[(response, id)], [AudioCall.Emit path (id == 0)], ?_, by simp, ?_⟩
          · rw [Respond_eq_extend, called_eq_extend, extend_extend]; rfl
          · intro p' hp'
            unfold ReadFuel
            simp only [hpos, hentry, if_true, and_self, hp', hemit]
            rw [Respond_eq_extend, called_eq_extend, extend_extend]; rfl
      · rename_i hentry
        rw [Option.map_eq_some'] at h
        obtain ⟨q, hq, rfl⟩ := h
        obtain ⟨o, c, e, a, s⟩ := foldl_bind_frame
          (fun q (i : String × String) => (ReadFuel M A n q i.2 id).map Prod.snd) id
          (RESOURCES_equal_range path)
          (by
            intro q1 b q2 h2
            rw [Option.map_eq_some'] at h2
            obtain ⟨r2, hr2, rfl⟩ := h2
            obtain ⟨o, c, e, a, s⟩ := ih q1 b.2 id r2 hr2
            refine ⟨o, c, e, a, ?_⟩
            intro p' hp'
            show (ReadFuel M A n p' b.2 id).map Prod.snd = _
            rw [s p' hp']
            rfl)
          (p.Respond (Response.Res "Directory" path (toString (RESOURCES_count path))) id) q hq
        refine ⟨(Response.Res "Directory" path (toString (RESOURCES_count path)), id) :: o, c,
          ?_, ?_, ?_⟩
        · show q = _
          rw [e, Respond_eq_extend, extend_extend]; rfl
        · intro x hx
          rcases List.mem_cons.1 hx with rfl | hx
          · rfl
          · exact a x hx
        · intro p' hp'
          unfold ReadFuel
          simp only [hpos, hentry, if_true, if_false]
          have hs := s (p'.Respond
            (Response.Res "Directory" path (toString (RESOURCES_count path))) id)
            (by rw [Respond_eq_extend, Respond_eq_extend, extend_file, extend_file, hp'])
          rw [hs]
          simp only [Option.map_some']
          rw [Respond_eq_extend, extend_extend]; rfl
    · rename_i hpos
      cases h
      refine ⟨[], [], (extend_nil p).symm, by simp, ?_⟩
      intro p' _
      unfold ReadFuel
      simp only [hpos, if_false, extend_nil]


theorem blank_extend_sink (f : τ) (out : List (Response × Nat)) (cs : List AudioCall) :
    ((blank f).extend out cs).sink.getD [] = out ∧ ((blank f).extend out cs).calls = cs := by
  simp [blank, extend]

/-- The effect of `Read` on any player is its effect on the blank player with
the same file: the same result, the same responses appended to the sink (when
attached) and the same calls recorded. -/
theorem Read_frame (M : Messages) (A : AudioSystem τ) (p : Player τ) (path : String)
    (id : Nat) :
    Read M A p path id =
      ((Read M A (blank p.file) path id).1,
        p.extend (Read_sent M A p.file path id) (Read_calls M A p.file path id)) := by
  obtain ⟨out, cs, e, -, s⟩ := ReadFuel_frame M A _ p path id _ (Read_eq_ReadFuel M A p path id)
  have hb := s (blank p.file) rfl
  rw [Read_eq_ReadFuel M A (blank p.file) path id] at hb
  have hb2 : Read M A (blank p.file) path id =
      ((Read M A p path id).1, (blank p.file).extend out cs) := Option.some.inj hb
  have h1 : Read_sent M A p.file path id = out := by
    unfold Read_sent; rw [hb2]; exact (blank_extend_sink p.file out cs).1
  have h2 : Read_calls M A p.file path id = cs := by
    unfold Read_calls; rw [hb2]; exact (blank_extend_sink p.file out cs).2
  have h3 : (Read M A (blank p.file) path id).1 = (Read M A p path id).1 := by rw [hb2]
  rw [h1, h2, h3, ← e]

/-- Every response `Read(path, id)` sends is addressed to `id`. -/
theorem Read_sent_addressed (M : Messages) (A : AudioSystem τ) (f : τ) (path : String)
    (id : Nat) : ∀ x ∈ Read_sent M A f path id, x.2 = id := by
  obtain ⟨out, cs, e, a, -⟩ :=
    ReadFuel_frame M A _ (blank f) path id _ (Read_eq_ReadFuel M A (blank f) path id)
  have h1 : Read_sent M A f path id = out := by
    unfold Read_sent; rw [e]; exact (blank_extend_sink f out cs).1
  rw [h1]
  exact a

/-- The result of `Read` does not depend on the sink, on the running flag or
on what has been sent or called before: only on the file. -/
theorem Read_result_of_file (M : Messages) (A : AudioSystem τ) (p q : Player τ)
    (path : String) (id : Nat) (h : p.file = q.file) :
    (Read M A p path id).1 = (Read M A q path id).1 := by
  rw [Read_frame M A p, Read_frame M A q, h]

theorem foldl_bind_mono {β : Type} (f g : Player τ → β → Option (Player τ))
    (hfg : ∀ q b q', f q b = some q' → g q b = some q') (l : List β) :
    ∀ (p q : Player τ),
      l.foldl (fun acc i => acc.bind (fun q => f q i)) (some p) = some q →
      l.foldl (fun acc i => acc.bind (fun q => g q i)) (some p) = some q := by
  induction l with
  | nil => intro p q h; exact h
  | cons b l ih =>
    intro p q h
    simp only [List.foldl_cons, Option.some_bind] at h ⊢
    cases hb : f p b with
    | none =>
      rw [hb, foldl_bind_none] at h
      cases h
    | some p1 =>
      rw [hb] at h
      rw [hfg p b p1 hb]
      exact ih p1 q h

theorem ReadFuel_mono (M : Messages) (A : AudioSystem τ) :
    ∀ (fuel : Nat) (p : Player τ) (path : String) (id : Nat) (r : CommandResult × Player τ),
      ReadFuel M A fuel p path id = some r → ReadFuel M A (fuel + 1) p path id = some r := by
  intro fuel
  induction fuel with
  | zero =>
    intro p path id r h
    simp [ReadFuel] at h
  | succ n ih =>
    intro p path id r h
    rw [ReadFuel] at h ⊢
    simp only at h ⊢
    split at h
    · rename_i hpos
      simp only [hpos, if_true]
      split at h
      · rename_i hentry
        simp only [hentry, and_self, if_true]
        exact h
      · rename_i hentry
        simp only [hentry, if_false]
        rw [Option.map_eq_some'] at h ⊢
        obtain ⟨q, hq, hr⟩ := h
        refine ⟨q, ?_, hr⟩
        refine foldl_bind_mono
          (fun q (i : String × String) => (ReadFuel M A n q i.2 id).map Prod.snd)
          (fun q (i : String × String) => (ReadFuel M A (n + 1) q i.2 id).map Prod.snd)
          ?_ _ _ _ hq
        intro q1 b q2 h2
        rw [Option.map_eq_some'] at h2 ⊢
        obtain ⟨r2, hr2, e2⟩ := h2
        exact ⟨r2, ih q1 b.2 id r2 hr2, e2⟩
    · rename_i hpos
      simp only [hpos, if_false]
      exact h

theorem ReadFuel_mono_add (M : Messages) (A : AudioSystem τ) (fuel k : Nat) (p : Player τ)
    (path : String) (id : Nat) (r : CommandResult × Player τ)
    (h : ReadFuel M A fuel p path id = some r) : ReadFuel M A (fuel + k) p path id = some r := by
  induction k with
  | zero => exact h
  | succ k ih => exact ReadFuel_mono M A (fuel + k) p path id r ih

/-- With fuel for four levels or more, `ReadFuel` returns what `Read` returns:
the bound plays no part. -/
theorem ReadFuel_eq_Read (M : Messages) (A : AudioSystem τ) (n : Nat) (p : Player τ)
    (path : String) (id : Nat) :
    ReadFuel M A (n + 4) p path id = some (Read M A p path id) := by
  obtain ⟨r, hr⟩ := ReadFuel_some M A 0 p path id
  have h9 := ReadFuel_mono_add M A (0 + 4) 5 p path id r hr
  have hn := ReadFuel_mono_add M A (0 + 4) n p path id r hr
  have e9 : RESOURCES.length = 0 + 4 + 5 := by decide
  have hR : Read M A p path id = r := by
    unfold Read
    rw [e9, h9]
    rfl
  rw [hR]
  have en : n + 4 = 0 + 4 + n := by omega
  rw [en]
  exact hn

theorem foldl_bind_total {β : Type} (g : Player τ → β → Player τ) (l : List β) :
    ∀ p : Player τ,
      l.foldl (fun acc i => acc.bind (fun q => some (g q i))) (some p) = some (l.foldl g p) := by
  induction l with
  | nil => intro p; rfl
  | cons b l ih =>
    intro p
    simp only [List.foldl_cons, Option.some_bind]
    exact ih (g p b)

/-- The recursion of `Player::Read`, free of the bound: an absent path fails,
an entry is delegated to `Emit`, and a directory sends its `Directory`
response and then reads every child in table order. -/
theorem Read_unfold (M : Messages) (A : AudioSystem τ) (p : Player τ) (path : String)
    (id : Nat) :
    Read M A p path id =
      if 0 < RESOURCES_count path then
        if 1 = RESOURCES_count path ∧
            (RESOURCES_equal_range path).head?.map Prod.snd = some "" then
          match A.Emit p.file path (id == 0) with
          | none => (CommandResult.Failure M.MSG_NOT_FOUND,
              p.called (AudioCall.Emit path (id == 0)))
          | some response => (CommandResult.Success,
              (p.called (AudioCall.Emit path (id == 0))).Respond response id)
        else
          (CommandResult.Success,
            (RESOURCES_equal_range path).foldl (fun q i => (Read M A q i.2 id).2)
              (p.Respond (Response.Res "Directory" path (toString (RESOURCES_count path))) id))
      else (CommandResult.Failure M.MSG_NOT_FOUND, p) := by
  have h := ReadFuel_eq_Read M A 5 p path id
  have e : 5 + 4 = 8 + 1 := rfl
  rw [e, ReadFuel] at h
  simp only at h
  have e8 : ∀ (q : Player τ) (c : String),
      ReadFuel M A 8 q c id = some (Read M A q c id) := fun q c => ReadFuel_eq_Read M A 4 q c id
  simp only [e8, Option.map_some'] at h
  rw [foldl_bind_total (fun q (i : String × String) => (Read M A q i.2 id).2)] at h
  simp only [Option.map_some'] at h
  split
  · rename_i hpos
    simp only [hpos, if_true] at h
    split
    · rename_i hentry
      simp only [hentry, and_self, if_true] at h
      cases hE : A.Emit p.file path (id == 0) with
      | none =>
        rw [hE] at h
        exact (Option.some.inj h).symm
      | some response =>
        rw [hE] at h
        exact (Option.some.inj h).symm
    · rename_i hentry
      simp only [hentry, if_false] at h
      exact (Option.some.inj h).symm
  · rename_i hpos
    simp only [hpos, if_false] at h
    exact (Option.some.inj h).symm

theorem foldl_Read_extend (M : Messages) (A : AudioSystem τ) (id : Nat)
    (l : List (String × String)) :
    ∀ p : Player τ,
      l.foldl (fun q i => (Read M A q i.2 id).2) p =
        p.extend ((l.map (fun i => Read_sent M A p.file i.2 id)).flatten)
          ((l.map (fun i => Read_calls M A p.file i.2 id)).flatten) := by
  induction l with
  | nil => intro p; simp [extend_nil]
  | cons b l ih =>
    intro p
    simp only [List.foldl_cons, List.map_cons, List.flatten_cons]
    rw [ih, Read_frame M A p b.2 id]
    simp only [extend_file]
    rw [extend_extend]

/-- What a directory read sends: the `Directory` response, then what the reads
of its children send, in table order. -/
theorem Read_sent_directory (M : Messages) (A : AudioSystem τ) (f : τ) (path : String)
    (id : Nat) (hpos : 0 < RESOURCES_count path)
    (hdir : ¬ (1 = RESOURCES_count path ∧
      (RESOURCES_equal_range path).head?.map Prod.snd = some "")) :
    (Read M A (blank f) path id).1 = CommandResult.Success ∧
    Read_sent M A f path id =
      (Response.Res "Directory" path (toString (RESOURCES_count path)), id) ::
        (((RESOURCES_equal_range path).map Prod.snd).map
          (fun c => Read_sent M A f c id)).flatten := by
  have h := Read_unfold M A (blank f) path id
  simp only [hpos, hdir, if_true, if_false] at h
  rw [foldl_Read_extend, Respond_eq_extend, extend_extend] at h
  refine ⟨by rw [h], ?_⟩
  show (Read M A (blank f) path id).2.sink.getD [] = _
  rw [h]
  have hf : ∀ (o : List (Response × Nat)) (c : List AudioCall),
      ((blank f).extend o c).file = f := fun _ _ => rfl
  simp only [(blank_extend_sink f _ _).1, hf, List.map_map, Function.comp_def,
    List.singleton_append]

/-- C11: for each of the four directories of the resource table, every client
id and every file, on a player with a sink attached `Read` returns `Success`,
whatever the reads of the children return, and what it sends is one
`Directory` response carrying the path and the number of its children,
followed by what `Read(c, id)` sends for each child `c` in table order; all of
it is appended to the sink and addressed to `id`. -/
theorem C11_Read_directory (M : Messages) (A : AudioSystem τ) (p : Player τ) (path : String)
    (id : Nat) (log : List (Response × Nat))
    (hdir : path = "/" ∨ path = "/control" ∨ path = "/player" ∨ path = "/player/time")
    (hsink : p.sink = some log) :
    (Read M A p path id).1 = CommandResult.Success ∧
    (Read M A p path id).2.sink = some (log ++ Read_sent M A p.file path id) ∧
    Read_sent M A p.file path id =
      (Response.Res "Directory" path (toString (RESOURCES_count path)), id) ::
        (((RESOURCES_equal_range path).map Prod.snd).map
          (fun c => Read_sent M A p.file c id)).flatten ∧
    (∀ x ∈ Read_sent M A p.file path id, x.2 = id) := by
  have hd : 0 < RESOURCES_count path ∧ ¬ (1 = RESOURCES_count path ∧
      (RESOURCES_equal_range path).head?.map Prod.snd = some "") := by
    rcases hdir with h | h | h | h <;> subst h <;> decide
  obtain ⟨h1, h2⟩ := Read_sent_directory M A p.file path id hd.1 hd.2
  refine ⟨?_, ?_, h2, Read_sent_addressed M A p.file path id⟩
  · rw [Read_frame M A p path id]
    exact h1
  · rw [Read_frame M A p path id]
    simp [extend, hsink]

/-- C11 at the root, on a player with a file loaded, for client 5: the root
has two children, and the whole listing is seven responses to client 5. -/
theorem C11_Read_directory_witness :
    loadedPlayer.sink = some [] ∧
    (Read sampleMessages sampleAudio loadedPlayer "/" 5).1 = CommandResult.Success ∧
    Read_sent sampleMessages sampleAudio loadedPlayer.file "/" 5 =
      (Response.Res "Directory" "/" (toString (RESOURCES_count "/")), 5) ::
        (((RESOURCES_equal_range "/").map Prod.snd).map
          (fun c => Read_sent sampleMessages sampleAudio loadedPlayer.file c 5)).flatten ∧
    Read_sent sampleMessages sampleAudio loadedPlayer.file "/" 5 =
      [(Response.Res "Directory" "/" "2", 5),
       (Response.Res "Directory" "/control" "1", 5),
       (Response.Res "Entry" "/control/state" "Stopped", 5),
       (Response.Res "Directory" "/player" "2", 5),
       (Response.Res "Entry" "/player/file" "song", 5),
       (Response.Res "Directory" "/player/time" "1", 5),
       (Response.Res "Entry" "/player/time/elapsed" "0", 5)] :=
  ⟨rfl,
    (C11_Read_directory sampleMessages sampleAudio loadedPlayer "/" 5 [] (Or.inl rfl) rfl).1,
    (C11_Read_directory sampleMessages sampleAudio loadedPlayer "/" 5 [] (Or.inl rfl) rfl).2.2.1,
    by decide⟩

/-- C12: for each of the three entries and every client id, `Read` makes one
call, `Emit(path, id == 0)`, on the file.  If `Emit` yields a response `r`,
`Read` returns `Success` and an attached sink receives `r` addressed to `id`
and nothing else; if `Emit` yields nothing, `Read` returns `Failure` with the
not-found message and the sink is as before.  No `Directory` response is sent
in either case; a null sink stays null. -/
theorem C12_Read_entry (M : Messages) (A : AudioSystem τ) (p : Player τ) (path : String)
    (id : Nat)
    (hentry : path = "/control/state" ∨ path = "/player/file" ∨
      path = "/player/time/elapsed") :
    (Read M A p path id).2.calls = p.calls ++ [AudioCall.Emit path (id == 0)] ∧
    (Read M A p path id).2.file = p.file ∧
    (Read M A p path id).2.is_running = p.is_running ∧
    (∀ r, A.Emit p.file path (id == 0) = some r →
      (Read M A p path id).1 = CommandResult.Success ∧
      (Read M A p path id).2.sink = p.sink.map (fun log => log ++ [(r, id)])) ∧
    (A.Emit p.file path (id == 0) = none →
      (Read M A p path id).1 = CommandResult.Failure M.MSG_NOT_FOUND ∧
      (Read M A p path id).2.sink = p.sink) := by
  have hd : 0 < RESOURCES_count path ∧ (1 = RESOURCES_count path ∧
      (RESOURCES_equal_range path).head?.map Prod.snd = some "") := by
    rcases hentry with h | h | h <;> subst h <;> decide
  have h := Read_unfold M A p path id
  simp only [hd.1, hd.2, and_self, if_true] at h
  cases hE : A.Emit p.file path (id == 0) with
  | none =>
    rw [hE] at h
    simp only at h
    rw [h]
    simp [called]
  | some r =>
    rw [hE] at h
    simp only at h
    rw [h, Respond_eq_extend, called_eq_extend, extend_extend]
    simp [extend]

/-- C12 at the elapsed-time entry for client 3 on a loaded file, where `Emit`
yields the position, and on the null audio, where it yields nothing. -/
theorem C12_Read_entry_witness :
    sampleAudio.Emit loadedPlayer.file "/player/time/elapsed" ((3 : Nat) == 0) =
      some (Response.Res "Entry" "/player/time/elapsed" "0") ∧
    ((Read sampleMessages sampleAudio loadedPlayer "/player/time/elapsed" 3).1 =
        CommandResult.Success ∧
      (Read sampleMessages sampleAudio loadedPlayer "/player/time/elapsed" 3).2.sink =
        loadedPlayer.sink.map
          (fun log => log ++ [(Response.Res "Entry" "/player/time/elapsed" "0", 3)])) ∧
    sampleAudio.Emit samplePlayer.file "/player/time/elapsed" ((3 : Nat) == 0) = none ∧
    ((Read sampleMessages sampleAudio samplePlayer "/player/time/elapsed" 3).1 =
        CommandResult.Failure sampleMessages.MSG_NOT_FOUND ∧
      (Read sampleMessages sampleAudio samplePlayer "/player/time/elapsed" 3).2.sink =
        samplePlayer.sink) :=
  ⟨rfl,
    (C12_Read_entry sampleMessages sampleAudio loadedPlayer "/player/time/elapsed" 3
      (Or.inr (Or.inr rfl))).2.2.2.1 _ rfl,
    rfl,
    (C12_Read_entry sampleMessages sampleAudio samplePlayer "/player/time/elapsed" 3
      (Or.inr (Or.inr rfl))).2.2.2.2 rfl⟩

/-- C13: a write to `/control/state` is `SetPlaying(true)` for `Playing`,
`SetPlaying(false)` for `Stopped`, `Eject()` for `Ejected` and `Quit()` for
`Quitting`; for every other payload it returns `Invalid` with the
invalid-payload message and leaves the player exactly as it was, nothing sent
and nothing called. -/
theorem C13_Write_control_state (M : Messages) (A : AudioSystem τ) (p : Player τ) :
    Write M A p "/control/state" "Playing" = SetPlaying M A p true ∧
    Write M A p "/control/state" "Stopped" = SetPlaying M A p false ∧
    Write M A p "/control/state" "Ejected" = noRaise (Eject M A p) ∧
    Write M A p "/control/state" "Quitting" = noRaise (Quit M A p) ∧
    (∀ payload : String, payload ≠ "Playing" → payload ≠ "Stopped" → payload ≠ "Ejected" →
      payload ≠ "Quitting" →
      Write M A p "/control/state" payload =
        (Except.ok (CommandResult.Invalid M.MSG_INVALID_PAYLOAD), p)) := by
  refine ⟨by simp [Write], by simp [Write], by simp [Write], by simp [Write], ?_⟩
  intro payload h1 h2 h3 h4
  simp [Write, Ne.symm h1, Ne.symm h2, Ne.symm h3, Ne.symm h4]

/-- C13 at the empty payload and at a payload in the wrong case. -/
theorem C13_Write_control_state_witness :
    Write sampleMessages sampleAudio loadedPlayer "/control/state" "" =
      (Except.ok (CommandResult.Invalid sampleMessages.MSG_INVALID_PAYLOAD), loadedPlayer) ∧
    Write sampleMessages sampleAudio loadedPlayer "/control/state" "playing" =
      (Except.ok (CommandResult.Invalid sampleMessages.MSG_INVALID_PAYLOAD), loadedPlayer) :=
  ⟨(C13_Write_control_state sampleMessages sampleAudio loadedPlayer).2.2.2.2 ""
      (by decide) (by decide) (by decide) (by decide),
    (C13_Write_control_state sampleMessages sampleAudio loadedPlayer).2.2.2.2 "playing"
      (by decide) (by decide) (by decide) (by decide)⟩

theorem SeekParse_zero (M : Messages) : SeekParse M "0" = Except.ok 0 := by
  rfl

/-- C14: `Delete` is a write of the default.  From every player state,
`Delete("/control/state")` equals `Write("/control/state", "Quitting")`,
`Delete("/player/file")` equals `Write("/control/state", "Ejected")` and
`Delete("/player/time/elapsed")` equals `Write("/player/time/elapsed", "0")`,
each with the same result, final state, responses and calls.  The payload `0`
is parsed, to position 0, so the last is the raw seek to zero and, the
needs-loaded message being another message, never the invalid-seek-value
rejection. -/
theorem C14_Delete_is_default_write (M : Messages) (A : AudioSystem τ) (p : Player τ) :
    Delete M A p "/control/state" = Write M A p "/control/state" "Quitting" ∧
    Delete M A p "/player/file" = Write M A p "/control/state" "Ejected" ∧
    Delete M A p "/player/time/elapsed" = Write M A p "/player/time/elapsed" "0" ∧
    SeekParse M "0" = Except.ok 0 ∧
    (M.MSG_CMD_NEEDS_LOADED ≠ M.MSG_SEEK_INVALID_VALUE →
      (Delete M A p "/player/time/elapsed").1 ≠
        Except.ok (CommandResult.Invalid M.MSG_SEEK_INVALID_VALUE)) := by
  refine ⟨by simp [Delete, Write], by simp [Delete, Write], by simp [Delete, Write],
    SeekParse_zero M, ?_⟩
  intro hM
  have hD : Delete M A p "/player/time/elapsed" = Seek M A p "0" := by simp [Delete]
  rw [hD]
  unfold Seek
  rw [SeekParse_zero M]
  simp only
  split
  · simp
  · split
    · simp only [ne_eq, Except.ok.injEq, CommandResult.Invalid.injEq]
      exact hM
    · split
      · split
        · simp
        · simp
      · simp

/-- C14 with the sample messages, on a player with a file loaded. -/
theorem C14_Delete_is_default_write_witness :
    sampleMessages.MSG_CMD_NEEDS_LOADED ≠ sampleMessages.MSG_SEEK_INVALID_VALUE ∧
    (Delete sampleMessages sampleAudio loadedPlayer "/player/time/elapsed").1 ≠
      Except.ok (CommandResult.Invalid sampleMessages.MSG_SEEK_INVALID_VALUE) :=
  ⟨by decide,
    (C14_Delete_is_default_write sampleMessages sampleAudio loadedPlayer).2.2.2.2 (by decide)⟩

/-- C15: from every player state `Eject` returns `Success` and leaves the null
audio as the current file, with the running flag and the sink pointer as they
were; a second `Eject` returns `Success` again and leaves the same player
state as the first: the same file, the same running flag, the same sink.  (An
attached sink is sent the control state once more if the null audio emits
one.) -/
theorem C15_Eject_idempotent (M : Messages) (A : AudioSystem τ) (p : Player τ) :
    (Eject M A p).1 = CommandResult.Success ∧
    (Eject M A p).2.file = A.Null ∧
    (Eject M A p).2.is_running = p.is_running ∧
    (Eject M A p).2.sink.isSome = p.sink.isSome ∧
    (Eject M A (Eject M A p).2).1 = CommandResult.Success ∧
    (Eject M A (Eject M A p).2).2.file = (Eject M A p).2.file ∧
    (Eject M A (Eject M A p).2).2.is_running = (Eject M A p).2.is_running ∧
    (Eject M A (Eject M A p).2).2.sink.isSome = (Eject M A p).2.sink.isSome ∧
    (Eject M A (Eject M A p).2).2 =
      (Eject M A p).2.extend (Read_sent M A A.Null "/control/state" 0)
        (AudioCall.Null :: Read_calls M A A.Null "/control/state" 0) := by
  have h1 := Eject_file M A p
  have h2 := Eject_file M A (Eject M A p).2
  refine ⟨rfl, h1.1, h1.2.1, h1.2.2, rfl, ?_, h2.2.1, h2.2.2, ?_⟩
  · rw [h2.1, h1.1]
  · generalize hq : (Eject M A p).2 = q
    have hqf : q.file = A.Null := by rw [← hq]; exact h1.1
    show (Read M A { q.called AudioCall.Null with file := A.Null } "/control/state" 0).2 = _
    rw [Read_frame]
    obtain ⟨f, r, s, c⟩ := q
    simp only at hqf
    subst hqf
    cases s <;> simp [extend, called]

/-- C16: with a sink attached, `WelcomeClient(id)` returns and the sink has
received, after what it held, an `OHAI` response whose only argument is the
greeting, a `FEATURES` response whose arguments are End, FileLoad, PlayStop,
Seek, TimeReport, and then what `Read("/", id)` sends, in this order and all
addressed to `id`; the file and the running flag are unchanged and the sink is
still attached. -/
theorem C16_WelcomeClient_sequence (M : Messages) (A : AudioSystem τ) (p : Player τ)
    (id : Nat) (log : List (Response × Nat)) (hsink : p.sink = some log) :
    ∃ q, WelcomeClient M A p id = some q ∧
      q.sink = some (log ++
        (({ code := "OHAI", args := [MSG_OHAI] } : Response), id) ::
        (({ code := "FEATURES",
            args := ["End", "FileLoad", "PlayStop", "Seek", "TimeReport"] } : Response), id) ::
        Read_sent M A p.file "/" id) ∧
      (∀ x ∈ (({ code := "OHAI", args := [MSG_OHAI] } : Response), id) ::
          (({ code := "FEATURES",
              args := ["End", "FileLoad", "PlayStop", "Seek", "TimeReport"] } : Response), id) ::
          Read_sent M A p.file "/" id, x.2 = id) ∧
      q.file = p.file ∧ q.is_running = p.is_running := by
  have hW : WelcomeClient M A p id =
      some (Read M A (p.extend
        [(({ code := "OHAI", args := [MSG_OHAI] } : Response), id),
         (({ code := "FEATURES",
             args := ["End", "FileLoad", "PlayStop", "Seek", "TimeReport"] } : Response), id)]
        []) "/" id).2 := by
    obtain ⟨f, r, s, c⟩ := p
    simp only at hsink
    subst hsink
    simp [WelcomeClient, RespondRaw, extend, Response.AddArg, FEATURES]
  refine ⟨_, hW, ?_, ?_, ?_, ?_⟩
  · rw [Read_frame, extend_extend]
    simp [extend, hsink]
  · intro x hx
    rcases List.mem_cons.1 hx with rfl | hx
    · rfl
    rcases List.mem_cons.1 hx with rfl | hx
    · rfl
    exact Read_sent_addressed M A p.file "/" id x hx
  · exact (Read_sameCore M A _ "/" id).1
  · exact (Read_sameCore M A _ "/" id).2.1

/-- C16 for client 1 on a fresh player with a sink attached: the greeting, the
features, then the listing of the root of a player with nothing loaded. -/
theorem C16_WelcomeClient_sequence_witness :
    samplePlayer.sink = some [] ∧
    (WelcomeClient sampleMessages sampleAudio samplePlayer 1).map (fun q => q.sink) =
      some (some
        [(({ code := "OHAI", args := ["Playslave++"] } : Response), 1),
         (({ code := "FEATURES",
             args := ["End", "FileLoad", "PlayStop", "Seek", "TimeReport"] } : Response), 1),
         (Response.Res "Directory" "/" "2", 1),
         (Response.Res "Directory" "/control" "1", 1),
         (Response.Res "Directory" "/player" "2", 1),
         (Response.Res "Directory" "/player/time" "1", 1)]) ∧
    ∃ q, WelcomeClient sampleMessages sampleAudio samplePlayer 1 = some q ∧
      q.file = samplePlayer.file ∧ q.is_running = samplePlayer.is_running :=
  ⟨rfl, by decide,
    (C16_WelcomeClient_sequence sampleMessages sampleAudio samplePlayer 1 [] rfl).elim
      (fun q h => ⟨q, h.1, h.2.2.2.1, h.2.2.2.2⟩)⟩

/-- C17, evaluated: on a freshly constructed player, whose sink is null,
`WelcomeClient` dereferences the null sink for its first response: the call
faults, where `Read` and `End` test the sink before each send. -/
theorem C17_WelcomeClient_null_sink_faults :
    (Player.new sampleAudio).sink = none ∧
    WelcomeClient sampleMessages sampleAudio (Player.new sampleAudio) 1 = none ∧
    (WelcomeClient sampleMessages sampleAudio (Player.new sampleAudio).SetSink 1).isSome = true ∧
    (Read sampleMessages sampleAudio (Player.new sampleAudio) "/" 1).1 =
      (Read sampleMessages sampleAudio (Player.new sampleAudio).SetSink "/" 1).1 := by
  decide

/-! ### The running flag and the sink pointer -/

theorem Read_flag (M : Messages) (A : AudioSystem τ) (p : Player τ) (path : String)
    (id : Nat) :
    (Read M A p path id).2.is_running = p.is_running ∧
    (Read M A p path id).2.sink.isSome = p.sink.isSome :=
  (Read_sameCore M A p path id).2

theorem SetPlaying_flag (M : Messages) (A : AudioSystem τ) (p : Player τ) (playing : Bool) :
    (SetPlaying M A p playing).2.is_running = p.is_running ∧
    (SetPlaying M A p playing).2.sink.isSome = p.sink.isSome := by
  unfold SetPlaying
  simp only
  split
  · split <;> exact ⟨rfl, rfl⟩
  · exact Read_flag M A _ _ _

theorem SeekRaw_flag (M : Messages) (A : AudioSystem τ) (p : Player τ) (pos : Nat) :
    (SeekRaw M A p pos).2.is_running = p.is_running ∧
    (SeekRaw M A p pos).2.sink.isSome = p.sink.isSome := by
  unfold SeekRaw
  simp only
  split
  · exact ⟨rfl, rfl⟩
  · exact Read_flag M A _ _ _

theorem Respond_flag (p : Player τ) (r : Response) (id : Nat) :
    (p.Respond r id).is_running = p.is_running ∧
    (p.Respond r id).sink.isSome = p.sink.isSome :=
  (sameCore_Respond p r id).2

theorem End_flag (M : Messages) (A : AudioSystem τ) (p : Player τ) :
    (End M A p).2.is_running = p.is_running ∧ (End M A p).2.sink.isSome = p.sink.isSome := by
  have h1 := SetPlaying_flag M A p false
  unfold End
  rcases hs : SetPlaying M A p false with ⟨r1, p1⟩
  rw [hs] at h1
  simp only at h1
  cases r1 with
  | error e => exact h1
  | ok v =>
    simp only
    have h2 := SeekRaw_flag M A p1 0
    rcases hr : SeekRaw M A p1 0 with ⟨r2, p2⟩
    rw [hr] at h2
    simp only at h2
    cases r2 with
    | error e => exact ⟨h2.1.trans h1.1, h2.2.trans h1.2⟩
    | ok u =>
      simp only
      split
      · exact ⟨h2.1.trans h1.1, h2.2.trans h1.2⟩
      · have h3 := Respond_flag p2 { code := "END", args := [] } 0
        exact ⟨h3.1.trans (h2.1.trans h1.1), h3.2.trans (h2.2.trans h1.2)⟩

/-- The end-of-track transition when the file's stop and its rewind both
succeed: it returns, the file is the rewound one, and an attached sink has
`END`, addressed to 0, as the last response received. -/
theorem End_returns (M : Messages) (A : AudioSystem τ) (p : Player τ) (f1 f2 : τ)
    (hstop : A.SetPlaying p.file false = Except.ok f1) (hrew : A.Seek f1 0 = Except.ok f2) :
    (End M A p).1 = Except.ok () ∧
    (End M A p).2.file = f2 ∧
    (p.sink = none → (End M A p).2.sink = none) ∧
    (p.sink ≠ none → ∃ log,
      (End M A p).2.sink = some (log ++ [(({ code := "END", args := [] } : Response), 0)])) := by
  have hSP : SetPlaying M A p false =
      (Except.ok CommandResult.Success,
        (Read M A { p.called (AudioCall.SetPlaying false) with file := f1 }
          "/control/state" 0).2) := by
    simp only [SetPlaying, hstop]
  have hc1 := Read_sameCore M A
    ({ p.called (AudioCall.SetPlaying false) with file := f1 } : Player τ) "/control/state" 0
  generalize (Read M A { p.called (AudioCall.SetPlaying false) with file := f1 }
    "/control/state" 0).2 = q1 at hSP hc1
  have hq1 : A.Seek q1.file 0 = Except.ok f2 := by rw [hc1.1]; exact hrew
  have hSR : SeekRaw M A q1 0 =
      (Except.ok (),
        (Read M A { q1.called (AudioCall.Seek 0) with file := f2 }
          "/player/time/elapsed" 0).2) := by
    simp only [SeekRaw, hq1]
  have hc2 := Read_sameCore M A
    ({ q1.called (AudioCall.Seek 0) with file := f2 } : Player τ) "/player/time/elapsed" 0
  generalize (Read M A { q1.called (AudioCall.Seek 0) with file := f2 }
    "/player/time/elapsed" 0).2 = q2 at hSR hc2
  have hfile : q2.file = f2 := hc2.1
  have hsink : q2.sink.isSome = p.sink.isSome := hc2.2.2.trans hc1.2.2
  have hE : End M A p =
      if q2.sink.isNone then (Except.ok (), q2)
      else (Except.ok (), q2.Respond { code := "END", args := [] } 0) := by
    simp only [End, hSP, hSR]
  rw [hE]
  cases hq : q2.sink with
  | none =>
    have hp : p.sink = none := by
      rw [hq] at hsink
      cases hps : p.sink with
      | none => rfl
      | some l => rw [hps] at hsink; cases hsink
    simp [hfile, hq, hp]
  | some l =>
    have hp : p.sink ≠ none := by
      rw [hq] at hsink
      intro hps
      rw [hps] at hsink
      cases hsink
    simp [Respond, hfile, hq, hp]

theorem Update_flag (M : Messages) (A : AudioSystem τ) (p : Player τ) :
    (Update M A p).2.is_running = p.is_running ∧
    (Update M A p).2.sink.isSome = p.sink.isSome ∧
    (∀ b, (Update M A p).1 = Except.ok b → b = p.is_running) := by
  unfold Update
  simp only
  by_cases hend : (A.Update p.file).1 = AudioState.AT_END
  · have hnp : ¬ (A.Update p.file).1 = AudioState.PLAYING := by rw [hend]; decide
    simp only [hend, hnp, if_true, if_false]
    have h := End_flag M A ({ p.called AudioCall.Update with file := (A.Update p.file).2 })
    rcases he : End M A ({ p.called AudioCall.Update with file := (A.Update p.file).2 })
      with ⟨r, p2⟩
    rw [he] at h
    simp only at h
    cases r with
    | error e => exact ⟨h.1, h.2, fun b hb => by cases hb⟩
    | ok u =>
      refine ⟨h.1, h.2, ?_⟩
      intro b hb
      simp only [Except.ok.injEq] at hb
      rw [← hb]
      exact h.1
  · simp only [hend, if_false]
    by_cases hplay : (A.Update p.file).1 = AudioState.PLAYING
    · simp only [hplay, if_true]
      have h := Read_flag M A ({ p.called AudioCall.Update with file := (A.Update p.file).2 })
        "/player/time/elapsed" 0
      refine ⟨h.1, h.2, ?_⟩
      intro b hb
      simp only [Except.ok.injEq] at hb
      rw [← hb]
      exact h.1
    · simp only [hplay, if_false]
      refine ⟨rfl, rfl, ?_⟩
      intro b hb
      simp only [Except.ok.injEq] at hb
      rw [← hb]
      rfl

/-- C18, refuted: on a file that has reached its end and cannot seek, `Update`
runs the end-of-track transition, whose rewind to zero raises `SeekError`; the
error leaves `Update`, which therefore does not return the running flag, and
the last response sent is the control state, not `END`. -/
theorem C18_Update_raises_at_end :
    (unseekableAudio.Update endedPlayer.file).1 = AudioState.AT_END ∧
    (Update sampleMessages unseekableAudio endedPlayer).1 =
      Except.error ⟨ErrorKind.SeekError, "seek failed"⟩ ∧
    (Update sampleMessages unseekableAudio endedPlayer).1 ≠
      Except.ok endedPlayer.is_running ∧
    (Update sampleMessages unseekableAudio endedPlayer).2.sink =
      some [(Response.Res "Entry" "/control/state" "Stopped", 0)] := by
  decide

/-- C18, amended: `Update` never changes the running flag, and whenever it
returns it returns that flag.  When the file reports a status other than
playing and at-end, `Update` returns and sends nothing.  When it reports
playing, `Update` returns and sends exactly what `Read("/player/time/elapsed",
0)` sends.  When it reports at-end, `Update` runs the end-of-track transition
`End` and has its outcome: if the file's stop and its rewind to zero succeed,
`Update` returns the flag and an attached sink has `END`, addressed to 0, as
the last response received (a null sink stays null); an error raised by `End`
leaves `Update`. -/
theorem C18_Update_by_status (M : Messages) (A : AudioSystem τ) (p : Player τ) :
    ((Update M A p).2.is_running = p.is_running ∧
      ∀ b, (Update M A p).1 = Except.ok b → b = p.is_running) ∧
    ((A.Update p.file).1 = AudioState.OTHER →
      Update M A p =
        (Except.ok p.is_running,
          ({ p.called AudioCall.Update with file := (A.Update p.file).2 } : Player τ))) ∧
    ((A.Update p.file).1 = AudioState.PLAYING →
      Update M A p =
        (Except.ok p.is_running,
          (Read M A ({ p.called AudioCall.Update with file := (A.Update p.file).2 } : Player τ)
            "/player/time/elapsed" 0).2) ∧
      (Update M A p).2.sink = p.sink.map
        (fun log => log ++ Read_sent M A (A.Update p.file).2 "/player/time/elapsed" 0)) ∧
    ((A.Update p.file).1 = AudioState.AT_END →
      (Update M A p =
        match End M A
          ({ p.called AudioCall.Update with file := (A.Update p.file).2 } : Player τ) with
        | (Except.ok _, p2) => (Except.ok p.is_running, p2)
        | (Except.error e, p2) => (Except.error e, p2)) ∧
      ∀ f1 f2 : τ, A.SetPlaying (A.Update p.file).2 false = Except.ok f1 →
        A.Seek f1 0 = Except.ok f2 →
        (Update M A p).1 = Except.ok p.is_running ∧
        (p.sink = none → (Update M A p).2.sink = none) ∧
        (p.sink ≠ none → ∃ log, (Update M A p).2.sink =
          some (log ++ [(({ code := "END", args := [] } : Response), 0)]))) := by
  have hflag := Update_flag M A p
  refine ⟨⟨hflag.1, hflag.2.2⟩, ?_, ?_, ?_⟩
  · intro hs
    simp [Update, hs, called]
  · intro hs
    have hU : Update M A p =
        (Except.ok p.is_running,
          (Read M A ({ p.called AudioCall.Update with file := (A.Update p.file).2 } : Player τ)
            "/player/time/elapsed" 0).2) := by
      have hr := (Read_flag M A
        ({ p.called AudioCall.Update with file := (A.Update p.file).2 } : Player τ)
        "/player/time/elapsed" 0).1
      simp only [Update, hs, if_true]
      simp only [reduceCtorEq, if_false]
      rw [hr]
      rfl
    refine ⟨hU, ?_⟩
    rw [hU, Read_frame]
    simp [extend, called]
  · intro hs
    have hE := End_flag M A
      ({ p.called AudioCall.Update with file := (A.Update p.file).2 } : Player τ)
    have hU : Update M A p =
        match End M A
          ({ p.called AudioCall.Update with file := (A.Update p.file).2 } : Player τ) with
        | (Except.ok _, p2) => (Except.ok p.is_running, p2)
        | (Except.error e, p2) => (Except.error e, p2) := by
      simp only [Update, hs, if_true]
      rcases he : End M A
        ({ p.called AudioCall.Update with file := (A.Update p.file).2 } : Player τ) with ⟨r, p2⟩
      rw [he] at hE
      simp only at hE
      cases r with
      | error e => rfl
      | ok u =>
        simp only [reduceCtorEq, if_false]
        rw [hE.1]
        rfl
    refine ⟨hU, ?_⟩
    intro f1 f2 hstop hrew
    obtain ⟨h1, -, h3, h4⟩ := End_returns M A
      ({ p.called AudioCall.Update with file := (A.Update p.file).2 } : Player τ) f1 f2
      hstop hrew
    rw [hU]
    rcases he : End M A
      ({ p.called AudioCall.Update with file := (A.Update p.file).2 } : Player τ) with ⟨r, p2⟩
    rw [he] at h1 h3 h4
    simp only at h1 h3 h4
    subst h1
    exact ⟨rfl, h3, h4⟩

/-- C18, amended, on a playing file at position 7, which `Update` advances to
8 and reports, and on a file at its end, which is stopped and rewound. -/
theorem C18_Update_by_status_witness :
    (sampleAudio.Update playingPlayer.file).1 = AudioState.PLAYING ∧
    (Update sampleMessages sampleAudio playingPlayer).2.sink =
      playingPlayer.sink.map (fun log => log ++
        Read_sent sampleMessages sampleAudio (sampleAudio.Update playingPlayer.file).2
          "/player/time/elapsed" 0) ∧
    (sampleAudio.Update endedPlayer.file).1 = AudioState.AT_END ∧
    (Update sampleMessages sampleAudio endedPlayer).1 = Except.ok endedPlayer.is_running ∧
    (Update sampleMessages sampleAudio endedPlayer).2.sink =
      some [(Response.Res "Entry" "/control/state" "Stopped", 0),
        (Response.Res "Entry" "/player/time/elapsed" "0", 0),
        (({ code := "END", args := [] } : Response), 0)] :=
  ⟨rfl,
    ((C18_Update_by_status sampleMessages sampleAudio playingPlayer).2.2.1 rfl).2,
    rfl,
    (((C18_Update_by_status sampleMessages sampleAudio endedPlayer).2.2.2 rfl).2
      (some (false, 100)) (some (false, 0)) rfl rfl).1,
    by decide⟩

/-- C19: for both values of the flag, when the file's `SetPlaying` raises
`NoAudioError`, `SetPlaying` returns `Invalid` with that error's message and
the file, the running flag and the sink are as before, nothing being sent;
when the file's `SetPlaying` succeeds, `SetPlaying` reads `/control/state` for
broadcast and returns `Success` whatever that read returns, so an attached
sink receives exactly what that read sends. -/
theorem C19_SetPlaying (M : Messages) (A : AudioSystem τ) (p : Player τ) (playing : Bool) :
    (∀ e : Error, A.SetPlaying p.file playing = Except.error e →
      e.kind = ErrorKind.NoAudioError →
      (SetPlaying M A p playing).1 = Except.ok (CommandResult.Invalid e.Message) ∧
      (SetPlaying M A p playing).2.file = p.file ∧
      (SetPlaying M A p playing).2.is_running = p.is_running ∧
      (SetPlaying M A p playing).2.sink = p.sink ∧
      (SetPlaying M A p playing).2.calls = p.calls ++ [AudioCall.SetPlaying playing]) ∧
    (∀ f : τ, A.SetPlaying p.file playing = Except.ok f →
      SetPlaying M A p playing =
        (Except.ok CommandResult.Success,
          (Read M A ({ p.called (AudioCall.SetPlaying playing) with file := f } : Player τ)
            "/control/state" 0).2) ∧
      (SetPlaying M A p playing).2.file = f ∧
      (SetPlaying M A p playing).2.sink =
        p.sink.map (fun log => log ++ Read_sent M A f "/control/state" 0)) := by
  refine ⟨?_, ?_⟩
  · intro e he hk
    simp [SetPlaying, he, hk, called]
  · intro f hf
    have hS : SetPlaying M A p playing =
        (Except.ok CommandResult.Success,
          (Read M A ({ p.called (AudioCall.SetPlaying playing) with file := f } : Player τ)
            "/control/state" 0).2) := by
      simp only [SetPlaying, hf]
    refine ⟨hS, ?_, ?_⟩
    · rw [hS]
      exact (Read_sameCore M A _ _ _).1
    · rw [hS, Read_frame]
      simp [extend, called]

/-- C19 on a fresh player, whose null audio raises `NoAudioError`, and on a
player with a file loaded, which starts playing and announces it. -/
theorem C19_SetPlaying_witness :
    sampleAudio.SetPlaying samplePlayer.file true =
      Except.error ⟨ErrorKind.NoAudioError, "no audio"⟩ ∧
    (SetPlaying sampleMessages sampleAudio samplePlayer true).1 =
      Except.ok (CommandResult.Invalid "no audio") ∧
    (SetPlaying sampleMessages sampleAudio samplePlayer true).2.sink = samplePlayer.sink ∧
    sampleAudio.SetPlaying loadedPlayer.file true = Except.ok (some (true, 0)) ∧
    (SetPlaying sampleMessages sampleAudio loadedPlayer true).1 =
      Except.ok CommandResult.Success ∧
    (SetPlaying sampleMessages sampleAudio loadedPlayer true).2.sink =
      some [(Response.Res "Entry" "/control/state" "Playing", 0)] :=
  ⟨rfl,
    ((C19_SetPlaying sampleMessages sampleAudio samplePlayer true).1
      ⟨ErrorKind.NoAudioError, "no audio"⟩ rfl rfl).1,
    ((C19_SetPlaying sampleMessages sampleAudio samplePlayer true).1
      ⟨ErrorKind.NoAudioError, "no audio"⟩ rfl rfl).2.2.2.1,
    rfl,
    congrArg Prod.fst ((C19_SetPlaying sampleMessages sampleAudio loadedPlayer true).2
      (some (true, 0)) rfl).1,
    by decide⟩

theorem Seek_flag (M : Messages) (A : AudioSystem τ) (p : Player τ) (s : String) :
    (Seek M A p s).2.is_running = p.is_running := by
  unfold Seek
  cases SeekParse M s with
  | error e =>
    simp only
    split <;> rfl
  | ok pos =>
    simp only
    have h1 := (SeekRaw_flag M A p pos).1
    rcases hr : SeekRaw M A p pos with ⟨r, p1⟩
    rw [hr] at h1
    simp only at h1
    cases r with
    | ok u => exact h1
    | error e =>
      simp only
      split
      · exact h1
      · split
        · have h2 := (End_flag M A p1).1
          rcases he : End M A p1 with ⟨r2, p2⟩
          rw [he] at h2
          simp only at h2
          cases r2 with
          | ok u => exact h2.trans h1
          | error e2 => exact h2.trans h1
        · exact h1

theorem Load_flag (M : Messages) (A : AudioSystem τ) (p : Player τ) (path : String) :
    (Load M A p path).2.is_running = p.is_running := by
  unfold Load
  split
  · rfl
  · simp only
    split
    · exact (Read_flag M A _ _ _).1
    · split
      · exact (Eject_file M A _).2.1
      · exact (Eject_file M A _).2.1

theorem Write_flag (M : Messages) (A : AudioSystem τ) (p : Player τ) (path payload : String) :
    (Write M A p path payload).2.is_running =
      if path = "/control/state" ∧ payload = "Quitting" then false else p.is_running := by
  unfold Write
  by_cases h1 : "/control/state" = path
  · subst h1
    simp only [if_true, true_and]
    by_cases h2 : "Playing" = payload
    · subst h2
      simp only [if_true]
      exact (SetPlaying_flag M A p true).1
    simp only [h2, if_false]
    by_cases h3 : "Stopped" = payload
    · subst h3
      simp only [if_true]
      exact (SetPlaying_flag M A p false).1
    simp only [h3, if_false]
    by_cases h4 : "Ejected" = payload
    · subst h4
      simp only [if_true]
      exact (Eject_file M A p).2.1
    simp only [h4, if_false]
    by_cases h5 : "Quitting" = payload
    · subst h5
      simp only [if_true]
      rfl
    · have h5' : ¬ payload = "Quitting" := fun e => h5 e.symm
      simp only [h5, h5', if_false]
  · have h1' : ¬ path = "/control/state" := fun e => h1 e.symm
    simp only [h1, h1', false_and, if_false]
    split
    · exact Load_flag M A p payload
    · split
      · exact Seek_flag M A p payload
      · rfl

theorem Delete_flag (M : Messages) (A : AudioSystem τ) (p : Player τ) (path : String) :
    (Delete M A p path).2.is_running =
      if path = "/control/state" then false else p.is_running := by
  unfold Delete
  by_cases h1 : "/control/state" = path
  · subst h1
    simp only [if_true]
    rfl
  · have h1' : ¬ path = "/control/state" := fun e => h1 e.symm
    simp only [h1, h1', if_false]
    split
    · exact (Eject_file M A p).2.1
    · split
      · exact Seek_flag M A p "0"
      · rfl

/-- C20: the running flag changes only on quit.  `Read`, `Update`,
`WelcomeClient`, `Load`, `Eject`, `Seek` and `SetPlaying` leave it as it was,
also when they raise; `Quit` sets it to false; `Write` sets it to false for
`Quitting` written to `/control/state` and leaves it otherwise; `Delete` sets
it to false for `/control/state` and leaves it otherwise; `RunCommand` sets it
to false when the player is running and the words are `write tag
/control/state Quitting` or `delete tag /control/state`, and leaves it for all
other words.  So no operation sets it from false to true. -/
theorem C20_running_flag (M : Messages) (A : AudioSystem τ) (p : Player τ) :
    (∀ path id, (Read M A p path id).2.is_running = p.is_running) ∧
    (Update M A p).2.is_running = p.is_running ∧
    (∀ id q, WelcomeClient M A p id = some q → q.is_running = p.is_running) ∧
    (∀ path, (Load M A p path).2.is_running = p.is_running) ∧
    (Eject M A p).2.is_running = p.is_running ∧
    (∀ s, (Seek M A p s).2.is_running = p.is_running) ∧
    (∀ playing, (SetPlaying M A p playing).2.is_running = p.is_running) ∧
    (Quit M A p).2.is_running = false ∧
    (∀ path payload, (Write M A p path payload).2.is_running =
      if path = "/control/state" ∧ payload = "Quitting" then false else p.is_running) ∧
    (∀ path, (Delete M A p path).2.is_running =
      if path = "/control/state" then false else p.is_running) ∧
    (∀ cmd id,
      (p.is_running = true →
        ((∃ tag, cmd = ["write", tag, "/control/state", "Quitting"]) ∨
          (∃ tag, cmd = ["delete", tag, "/control/state"])) →
        (RunCommand M A p cmd id).2.is_running = false) ∧
      (¬ ((∃ tag, cmd = ["write", tag, "/control/state", "Quitting"]) ∨
          (∃ tag, cmd = ["delete", tag, "/control/state"])) →
        (RunCommand M A p cmd id).2.is_running = p.is_running) ∧
      ((RunCommand M A p cmd id).2.is_running = true → p.is_running = true)) := by
  have hrun : ∀ cmd id,
      (p.is_running = true →
        ((∃ tag, cmd = ["write", tag, "/control/state", "Quitting"]) ∨
          (∃ tag, cmd = ["delete", tag, "/control/state"])) →
        (RunCommand M A p cmd id).2.is_running = false) ∧
      (¬ ((∃ tag, cmd = ["write", tag, "/control/state", "Quitting"]) ∨
          (∃ tag, cmd = ["delete", tag, "/control/state"])) →
        (RunCommand M A p cmd id).2.is_running = p.is_running) := by
    intro cmd id
    constructor
    · intro hr hq
      rcases hq with ⟨tag, rfl⟩ | ⟨tag, rfl⟩
      · have : RunCommand M A p ["write", tag, "/control/state", "Quitting"] id =
            Write M A p "/control/state" "Quitting" := by simp [RunCommand, hr]
        rw [this, Write_flag]
        simp
      · have : RunCommand M A p ["delete", tag, "/control/state"] id =
            Delete M A p "/control/state" := by simp [RunCommand, hr]
        rw [this, Delete_flag]
        simp
    · intro hq
      cases hr : p.is_running with
      | false => simp [RunCommand, hr]
      | true =>
        match cmd with
        | [] => simp [RunCommand, hr]
        | [w] => simp [RunCommand, hr]
        | [w, a] => simp [RunCommand, hr]
        | [w, a, b] =>
          by_cases h1 : "read" = w
          · subst h1
            have : RunCommand M A p ["read", a, b] id = noRaise (Read M A p b id) := by
              simp [RunCommand, hr]
            rw [this]
            exact ((Read_flag M A p b id).1).trans hr
          by_cases h2 : "delete" = w
          · subst h2
            have : RunCommand M A p ["delete", a, b] id = Delete M A p b := by
              simp [RunCommand, hr]
            rw [this, Delete_flag]
            have hb : ¬ b = "/control/state" := by
              intro e
              exact hq (Or.inr ⟨a, by rw [e]⟩)
            simp [hb, hr]
          simp [RunCommand, hr, h1, h2]
        | [w, a, b, c] =>
          by_cases h3 : "write" = w
          · subst h3
            have : RunCommand M A p ["write", a, b, c] id = Write M A p b c := by
              simp [RunCommand, hr]
            rw [this, Write_flag]
            have hb : ¬ (b = "/control/state" ∧ c = "Quitting") := by
              rintro ⟨e1, e2⟩
              exact hq (Or.inl ⟨a, by rw [e1, e2]⟩)
            simp [hb, hr]
          simp [RunCommand, hr, h3]
        | w :: a :: b :: c :: d :: rest => simp [RunCommand, hr]
  refine ⟨fun path id => (Read_flag M A p path id).1, (Update_flag M A p).1, ?_,
    Load_flag M A p, (Eject_file M A p).2.1, Seek_flag M A p,
    fun playing => (SetPlaying_flag M A p playing).1, rfl, Write_flag M A p,
    Delete_flag M A p, ?_⟩
  · intro id q hq
    unfold WelcomeClient RespondRaw at hq
    cases hs : p.sink with
    | none =>
      rw [hs] at hq
      simp at hq
    | some log =>
      rw [hs] at hq
      simp only [Option.some_bind, Option.some.injEq] at hq
      rw [← hq]
      exact (Read_flag M A _ _ _).1
  · intro cmd id
    refine ⟨(hrun cmd id).1, (hrun cmd id).2, ?_⟩
    intro ht
    by_cases hq : (∃ tag, cmd = ["write", tag, "/control/state", "Quitting"]) ∨
        (∃ tag, cmd = ["delete", tag, "/control/state"])
    · cases hr : p.is_running with
      | true => rfl
      | false =>
        have : RunCommand M A p cmd id =
            (Except.ok (CommandResult.Failure M.MSG_CMD_PLAYER_CLOSING), p) := by
          simp [RunCommand, hr]
        rw [this] at ht
        simp only at ht
        rw [hr] at ht
        cases ht
    · rw [(hrun cmd id).2 hq] at ht
      exact ht

/-- C20 on a running player with a file loaded: `delete tag /control/state`
stops it, `write tag /control/state Stopped` does not. -/
theorem C20_running_flag_witness :
    loadedPlayer.is_running = true ∧
    (RunCommand sampleMessages sampleAudio loadedPlayer ["delete", "tag", "/control/state"]
      2).2.is_running = false ∧
    (RunCommand sampleMessages sampleAudio loadedPlayer
      ["write", "tag", "/control/state", "Stopped"] 2).2.is_running =
      loadedPlayer.is_running :=
  ⟨rfl,
    ((C20_running_flag sampleMessages sampleAudio loadedPlayer).2.2.2.2.2.2.2.2.2.2
      ["delete", "tag", "/control/state"] 2).1 rfl (Or.inr ⟨"tag", rfl⟩),
    ((C20_running_flag sampleMessages sampleAudio loadedPlayer).2.2.2.2.2.2.2.2.2.2
      ["write", "tag", "/control/state", "Stopped"] 2).2.1 (by simp)⟩

/-! ### Operations without a sink

Apart from `WelcomeClient`, every operation run without a sink returns what it
returns with one, and leaves the same state but for the sink. -/

theorem dropSink_Respond (p : Player τ) (r : Response) (id : Nat) :
    dropSink (p.Respond r id) = dropSink p := by
  obtain ⟨f, run, s, c⟩ := p
  cases s <;> rfl

theorem dropSink_extend (p : Player τ) (out : List (Response × Nat)) (cs : List AudioCall) :
    (dropSink p).extend out cs = dropSink (p.extend out cs) := rfl

theorem Read_dropSink (M : Messages) (A : AudioSystem τ) (p : Player τ) (path : String)
    (id : Nat) :
    Read M A (dropSink p) path id =
      ((Read M A p path id).1, dropSink (Read M A p path id).2) := by
  rw [Read_frame M A (dropSink p), Read_frame M A p]
  rfl

theorem Eject_dropSink (M : Messages) (A : AudioSystem τ) (p : Player τ) :
    Eject M A (dropSink p) = ((Eject M A p).1, dropSink (Eject M A p).2) := by
  show (CommandResult.Success,
    (Read M A (dropSink { p.called AudioCall.Null with file := A.Null }) "/control/state" 0).2) = _
  rw [Read_dropSink]
  rfl

theorem Quit_dropSink (M : Messages) (A : AudioSystem τ) (p : Player τ) :
    Quit M A (dropSink p) = ((Quit M A p).1, dropSink (Quit M A p).2) := by
  unfold Quit
  rw [Eject_dropSink]
  rfl

theorem SetPlaying_dropSink (M : Messages) (A : AudioSystem τ) (p : Player τ) (playing : Bool) :
    SetPlaying M A (dropSink p) playing =
      ((SetPlaying M A p playing).1, dropSink (SetPlaying M A p playing).2) := by
  unfold SetPlaying
  have hf : (dropSink p).file = p.file := rfl
  rw [hf]
  cases A.SetPlaying p.file playing with
  | error e =>
    simp only
    split <;> rfl
  | ok f =>
    simp only
    have := Read_dropSink M A
      ({ p.called (AudioCall.SetPlaying playing) with file := f } : Player τ) "/control/state" 0
    have e : ({ (dropSink p).called (AudioCall.SetPlaying playing) with file := f } : Player τ) =
        dropSink { p.called (AudioCall.SetPlaying playing) with file := f } := rfl
    rw [e, this]

theorem SeekRaw_dropSink (M : Messages) (A : AudioSystem τ) (p : Player τ) (pos : Nat) :
    SeekRaw M A (dropSink p) pos =
      ((SeekRaw M A p pos).1, dropSink (SeekRaw M A p pos).2) := by
  unfold SeekRaw
  have hf : (dropSink p).file = p.file := rfl
  rw [hf]
  cases A.Seek p.file pos with
  | error e => rfl
  | ok f =>
    simp only
    have := Read_dropSink M A
      ({ p.called (AudioCall.Seek pos) with file := f } : Player τ) "/player/time/elapsed" 0
    have e : ({ (dropSink p).called (AudioCall.Seek pos) with file := f } : Player τ) =
        dropSink { p.called (AudioCall.Seek pos) with file := f } := rfl
    rw [e, this]

theorem End_dropSink (M : Messages) (A : AudioSystem τ) (p : Player τ) :
    End M A (dropSink p) = ((End M A p).1, dropSink (End M A p).2) := by
  unfold End
  rw [SetPlaying_dropSink]
  rcases SetPlaying M A p false with ⟨r1, p1⟩
  cases r1 with
  | error e => rfl
  | ok v =>
    simp only
    rw [SeekRaw_dropSink]
    rcases SeekRaw M A p1 0 with ⟨r2, p2⟩
    cases r2 with
    | error e => rfl
    | ok u =>
      simp only
      have h1 : (dropSink p2).sink.isNone = true := rfl
      rw [if_pos h1]
      split
      · rfl
      · simp only [dropSink_Respond]

theorem Seek_dropSink (M : Messages) (A : AudioSystem τ) (p : Player τ) (s : String) :
    Seek M A (dropSink p) s = ((Seek M A p s).1, dropSink (Seek M A p s).2) := by
  unfold Seek
  cases SeekParse M s with
  | error e =>
    simp only
    split <;> rfl
  | ok pos =>
    simp only
    rw [SeekRaw_dropSink]
    rcases SeekRaw M A p pos with ⟨r, p1⟩
    cases r with
    | ok u => rfl
    | error e =>
      simp only
      split
      · rfl
      · split
        · rw [End_dropSink]
          rcases End M A p1 with ⟨r2, p2⟩
          cases r2 <;> rfl
        · rfl

theorem Load_dropSink (M : Messages) (A : AudioSystem τ) (p : Player τ) (path : String) :
    Load M A (dropSink p) path = ((Load M A p path).1, dropSink (Load M A p path).2) := by
  unfold Load
  split
  · rfl
  · simp only
    cases A.Load path with
    | ok f =>
      simp only
      have := Read_dropSink M A
        ({ ({ p.called AudioCall.Null with file := A.Null } : Player τ).called
          (AudioCall.Load path) with file := f } : Player τ) "/" 0
      have e : ({ ({ (dropSink p).called AudioCall.Null with file := A.Null } : Player τ).called
          (AudioCall.Load path) with file := f } : Player τ) =
          dropSink { ({ p.called AudioCall.Null with file := A.Null } : Player τ).called
            (AudioCall.Load path) with file := f } := rfl
      rw [e, this]
    | error err =>
      simp only
      have := Eject_dropSink M A
        (({ p.called AudioCall.Null with file := A.Null } : Player τ).called
          (AudioCall.Load path))
      have e : (({ (dropSink p).called AudioCall.Null with file := A.Null } : Player τ).called
          (AudioCall.Load path)) =
          dropSink (({ p.called AudioCall.Null with file := A.Null } : Player τ).called
            (AudioCall.Load path)) := rfl
      rw [e, this]
      split <;> rfl

theorem Write_dropSink (M : Messages) (A : AudioSystem τ) (p : Player τ)
    (path payload : String) :
    Write M A (dropSink p) path payload =
      ((Write M A p path payload).1, dropSink (Write M A p path payload).2) := by
  unfold Write
  split
  · split
    · exact SetPlaying_dropSink M A p true
    · split
      · exact SetPlaying_dropSink M A p false
      · split
        · rw [Eject_dropSink]; rfl
        · split
          · rw [Quit_dropSink]; rfl
          · rfl
  · split
    · exact Load_dropSink M A p payload
    · split
      · exact Seek_dropSink M A p payload
      · rfl

theorem Delete_dropSink (M : Messages) (A : AudioSystem τ) (p : Player τ) (path : String) :
    Delete M A (dropSink p) path =
      ((Delete M A p path).1, dropSink (Delete M A p path).2) := by
  unfold Delete
  split
  · rw [Quit_dropSink]; rfl
  · split
    · rw [Eject_dropSink]; rfl
    · split
      · exact Seek_dropSink M A p "0"
      · rfl

theorem RunCommand_dropSink (M : Messages) (A : AudioSystem τ) (p : Player τ)
    (cmd : List String) (id : Nat) :
    RunCommand M A (dropSink p) cmd id =
      ((RunCommand M A p cmd id).1, dropSink (RunCommand M A p cmd id).2) := by
  unfold RunCommand
  have hr : (dropSink p).is_running = p.is_running := rfl
  rw [hr]
  split
  · rfl
  · split
    · rfl
    · simp only
      split
      · rw [Read_dropSink]; rfl
      · split
        · exact Delete_dropSink M A p _
        · split
          · exact Write_dropSink M A p _ _
          · rfl

theorem Update_dropSink (M : Messages) (A : AudioSystem τ) (p : Player τ) :
    Update M A (dropSink p) = ((Update M A p).1, dropSink (Update M A p).2) := by
  unfold Update
  have hf : (dropSink p).file = p.file := rfl
  simp only [hf]
  have e : ({ (dropSink p).called AudioCall.Update with file := (A.Update p.file).2 } :
      Player τ) = dropSink { p.called AudioCall.Update with file := (A.Update p.file).2 } := rfl
  rw [e]
  by_cases hend : (A.Update p.file).1 = AudioState.AT_END
  · simp only [hend, if_true]
    rw [End_dropSink]
    rcases End M A { p.called AudioCall.Update with file := (A.Update p.file).2 } with ⟨r, p2⟩
    cases r with
    | error e2 => rfl
    | ok u => rfl
  · simp only [hend, if_false]
    by_cases hplay : (A.Update p.file).1 = AudioState.PLAYING
    · simp only [hplay, if_true]
      rw [Read_dropSink]
      rfl
    · simp only [hplay, if_false]
      rfl

/-- Without a sink `WelcomeClient` faults, whatever the player and the client. -/
theorem WelcomeClient_dropSink (M : Messages) (A : AudioSystem τ) (p : Player τ) (id : Nat) :
    WelcomeClient M A (dropSink p) id = none := rfl

/-! ### Who is told of a change -/

theorem broadcastOnly_refl (s : Option (List (Response × Nat))) : broadcastOnly s s := by
  refine ⟨[], ?_, by simp⟩
  cases s <;> simp

theorem broadcastOnly_trans {s1 s2 s3 : Option (List (Response × Nat))}
    (h1 : broadcastOnly s1 s2) (h2 : broadcastOnly s2 s3) : broadcastOnly s1 s3 := by
  obtain ⟨o1, e1, a1⟩ := h1
  obtain ⟨o2, e2, a2⟩ := h2
  refine ⟨o1 ++ o2, ?_, ?_⟩
  · rw [e2, e1]
    cases s1 <;> simp
  · intro x hx
    rcases List.mem_append.1 hx with hx | hx
    · exact a1 x hx
    · exact a2 x hx

theorem broadcastOnly_Read (M : Messages) (A : AudioSystem τ) (p : Player τ) (path : String) :
    broadcastOnly p.sink (Read M A p path 0).2.sink := by
  refine ⟨Read_sent M A p.file path 0, ?_, Read_sent_addressed M A p.file path 0⟩
  rw [Read_frame]
  rfl

theorem broadcastOnly_Respond (p : Player τ) (r : Response) :
    broadcastOnly p.sink (p.Respond r 0).sink := by
  refine ⟨[(r, 0)], ?_, by simp⟩
  rw [Respond_eq_extend]
  rfl

theorem Eject_broadcast (M : Messages) (A : AudioSystem τ) (p : Player τ) :
    broadcastOnly p.sink (Eject M A p).2.sink :=
  broadcastOnly_Read M A ({ p.called AudioCall.Null with file := A.Null } : Player τ)
    "/control/state"

theorem Quit_broadcast (M : Messages) (A : AudioSystem τ) (p : Player τ) :
    broadcastOnly p.sink (Quit M A p).2.sink :=
  Eject_broadcast M A p

theorem SetPlaying_broadcast (M : Messages) (A : AudioSystem τ) (p : Player τ)
    (playing : Bool) : broadcastOnly p.sink (SetPlaying M A p playing).2.sink := by
  unfold SetPlaying
  simp only
  split
  · split <;> exact broadcastOnly_refl p.sink
  · rename_i f _
    exact broadcastOnly_Read M A
      ({ p.called (AudioCall.SetPlaying playing) with file := f } : Player τ) "/control/state"

theorem SeekRaw_broadcast (M : Messages) (A : AudioSystem τ) (p : Player τ) (pos : Nat) :
    broadcastOnly p.sink (SeekRaw M A p pos).2.sink := by
  unfold SeekRaw
  simp only
  split
  · exact broadcastOnly_refl p.sink
  · rename_i f _
    exact broadcastOnly_Read M A
      ({ p.called (AudioCall.Seek pos) with file := f } : Player τ) "/player/time/elapsed"

theorem End_broadcast (M : Messages) (A : AudioSystem τ) (p : Player τ) :
    broadcastOnly p.sink (End M A p).2.sink := by
  have h1 := SetPlaying_broadcast M A p false
  unfold End
  rcases hs : SetPlaying M A p false with ⟨r1, p1⟩
  rw [hs] at h1
  simp only at h1
  cases r1 with
  | error e => exact h1
  | ok v =>
    simp only
    have h2 := SeekRaw_broadcast M A p1 0
    rcases hr : SeekRaw M A p1 0 with ⟨r2, p2⟩
    rw [hr] at h2
    simp only at h2
    cases r2 with
    | error e => exact broadcastOnly_trans h1 h2
    | ok u =>
      simp only
      split
      · exact broadcastOnly_trans h1 h2
      · exact broadcastOnly_trans (broadcastOnly_trans h1 h2) (broadcastOnly_Respond p2 _)

theorem Seek_broadcast (M : Messages) (A : AudioSystem τ) (p : Player τ) (s : String) :
    broadcastOnly p.sink (Seek M A p s).2.sink := by
  unfold Seek
  cases SeekParse M s with
  | error e =>
    simp only
    split <;> exact broadcastOnly_refl p.sink
  | ok pos =>
    simp only
    have h1 := SeekRaw_broadcast M A p pos
    rcases hr : SeekRaw M A p pos with ⟨r, p1⟩
    rw [hr] at h1
    simp only at h1
    cases r with
    | ok u => exact h1
    | error e =>
      simp only
      split
      · exact h1
      · split
        · have h2 := End_broadcast M A p1
          rcases he : End M A p1 with ⟨r2, p2⟩
          rw [he] at h2
          simp only at h2
          cases r2 with
          | ok u => exact broadcastOnly_trans h1 h2
          | error e2 => exact broadcastOnly_trans h1 h2
        · exact h1

theorem Load_broadcast (M : Messages) (A : AudioSystem τ) (p : Player τ) (path : String) :
    broadcastOnly p.sink (Load M A p path).2.sink := by
  unfold Load
  split
  · exact broadcastOnly_refl p.sink
  · simp only
    split
    · rename_i f _
      exact broadcastOnly_Read M A
        ({ ({ p.called AudioCall.Null with file := A.Null } : Player τ).called
          (AudioCall.Load path) with file := f } : Player τ) "/"
    · split
      · exact Eject_broadcast M A
          (({ p.called AudioCall.Null with file := A.Null } : Player τ).called
            (AudioCall.Load path))
      · exact Eject_broadcast M A
          (({ p.called AudioCall.Null with file := A.Null } : Player τ).called
            (AudioCall.Load path))

theorem Write_broadcast (M : Messages) (A : AudioSystem τ) (p : Player τ)
    (path payload : String) : broadcastOnly p.sink (Write M A p path payload).2.sink := by
  unfold Write
  split
  · split
    · exact SetPlaying_broadcast M A p true
    · split
      · exact SetPlaying_broadcast M A p false
      · split
        · exact Eject_broadcast M A p
        · split
          · exact Quit_broadcast M A p
          · exact broadcastOnly_refl p.sink
  · split
    · exact Load_broadcast M A p payload
    · split
      · exact Seek_broadcast M A p payload
      · exact broadcastOnly_refl p.sink

theorem Delete_broadcast (M : Messages) (A : AudioSystem τ) (p : Player τ) (path : String) :
    broadcastOnly p.sink (Delete M A p path).2.sink := by
  unfold Delete
  split
  · exact Quit_broadcast M A p
  · split
    · exact Eject_broadcast M A p
    · split
      · exact Seek_broadcast M A p "0"
      · exact broadcastOnly_refl p.sink

/-- C21: whatever a `Write` or a `Delete` sends is sent to everyone.  From
every player state, and also when the operation raises, the sink after a
`Write` or a `Delete` is the sink before followed by further responses that
are all addressed to the broadcast id 0 (a null sink stays null); and the
`write` and `delete` commands run through `RunCommand` have the same result
and leave the same state, sink included, whichever client id issued them. -/
theorem C21_changes_are_broadcast (M : Messages) (A : AudioSystem τ) (p : Player τ)
    (path payload : String) :
    (∃ out : List (Response × Nat),
      (Write M A p path payload).2.sink = p.sink.map (fun log => log ++ out) ∧
      ∀ x ∈ out, x.2 = 0) ∧
    (∃ out : List (Response × Nat),
      (Delete M A p path).2.sink = p.sink.map (fun log => log ++ out) ∧
      ∀ x ∈ out, x.2 = 0) ∧
    (∀ (tag : String) (id1 id2 : Nat),
      RunCommand M A p ["write", tag, path, payload] id1 =
        RunCommand M A p ["write", tag, path, payload] id2) ∧
    (∀ (tag : String) (id1 id2 : Nat),
      RunCommand M A p ["delete", tag, path] id1 =
        RunCommand M A p ["delete", tag, path] id2) := by
  refine ⟨Write_broadcast M A p path payload, Delete_broadcast M A p path, ?_, ?_⟩
  · intro tag id1 id2
    simp [RunCommand]
  · intro tag id1 id2
    simp [RunCommand]

end Player

/-! ## Properties of the listener-based player -/

namespace Legacy

namespace Player

variable {α L : Type}

/-- The 64-bit difference of two positions is their difference. -/
theorem wrap64_sub_positions (x y : Int) (hx : isPosition x) (hy : isPosition y) :
    wrap64 (x - y) = x - y := by
  unfold isPosition at hx hy
  unfold wrap64
  omega

/-- Outside the positions the 64-bit difference wraps: from a last position of
-1 the position 2^63 - 1 is a wrapped, negative, difference away, and is not
ready for a period of 0. -/
theorem IsReadyToSendPosition_wraps :
    wrap64 (9223372036854775807 - (-1)) = -9223372036854775808 ∧
    IsReadyToSendPosition
      ({ registeredPlayer with
        position_period := 0, position_last := -1, position_last_invalid := false } :
        Player Int String) 9223372036854775807 = false := by
  decide

/-- The outcome of one call of `SendPositionIfReady` with a listener
registered, the current position and the last position sent being positions:
the first call, when there is no last position, announces the current
position; a later call announces it exactly when it is at least the period
past the last position sent; an announcement is recorded and becomes the last
position sent. -/
theorem SendPositionIfReady_registered (A : AudioOutput α) (p : Player α L) (l : L) (a : α)
    (hl : p.position_listener = some l)
    (hlast : p.position_last_invalid = false → isPosition p.position_last)
    (hcur : p.position_last_invalid = false → isPosition (A.CurrentPosition a)) :
    SendPositionIfReady A { p with au := some a } =
      some (if p.position_last_invalid = true ∨
            p.position_period ≤ A.CurrentPosition a - p.position_last then
          { p with
            au := some a,
            announced := p.announced ++ [(l, A.CurrentPosition a)],
            position_last := A.CurrentPosition a,
            position_last_invalid := false }
        else { p with au := some a }) := by
  rcases Bool.eq_false_or_eq_true p.position_last_invalid with hinv | hinv
  · simp [SendPositionIfReady, IsReadyToSendPosition, hl, hinv]
  · have hw := wrap64_sub_positions (A.CurrentPosition a) p.position_last (hcur hinv)
      (hlast hinv)
    by_cases hd : p.position_period ≤ A.CurrentPosition a - p.position_last
    · simp [SendPositionIfReady, IsReadyToSendPosition, hl, hinv, hw, hd]
    · simp [SendPositionIfReady, IsReadyToSendPosition, hl, hinv, hw, hd]

theorem step_throttled (A : AudioOutput α) (l : L) (period : Int) (p : Player α L) (a : α)
    (h : throttled l period p) (hcur : isPosition (A.CurrentPosition a)) :
    ∃ q, SendPositionIfReady A { p with au := some a } = some q ∧ throttled l period q ∧
      q.position_last_invalid = false ∧ ∃ ext, q.announced = p.announced ++ ext := by
  obtain ⟨hl, hp, hc, hlast, hnone, hpos⟩ := h
  rw [SendPositionIfReady_registered A p l a hl hpos (fun _ => hcur)]
  by_cases hcond : p.position_last_invalid = true ∨
      p.position_period ≤ A.CurrentPosition a - p.position_last
  · rw [if_pos hcond]
    refine ⟨_, rfl, ⟨hl, hp, ?_, ?_, ?_, fun _ => hcur⟩, rfl, ⟨_, rfl⟩⟩
    · show List.Chain' (fun x y : Int => period ≤ y - x)
        ((p.announced ++ [(l, A.CurrentPosition a)]).map Prod.snd)
      by_cases hinv : p.position_last_invalid = true
      · rw [hnone hinv]
        simp
      · have hinv2 : p.position_last_invalid = false := by
          cases hb : p.position_last_invalid with
          | true => exact absurd hb hinv
          | false => rfl
        have hd : p.position_period ≤ A.CurrentPosition a - p.position_last := by
          rcases hcond with hc1 | hc2
          · exact absurd hc1 hinv
          · exact hc2
        have hl2 := hlast hinv2
        simp only [List.map_append, List.map_cons, List.map_nil]
        rw [List.chain'_append]
        refine ⟨hc, List.chain'_singleton _, ?_⟩
        intro x hx y hy
        simp only [List.head?_cons, Option.mem_def, Option.some.injEq] at hy
        rw [List.getLast?_map, hl2] at hx
        simp only [Option.map_some', Option.mem_def, Option.some.injEq] at hx
        subst hx hy
        rw [← hp]
        exact hd
    · intro _
      show (p.announced ++ [(l, A.CurrentPosition a)]).getLast? = some (l, A.CurrentPosition a)
      simp
    · intro hh
      cases hh
  · rw [if_neg hcond]
    have hinv : p.position_last_invalid = false := by
      cases hb : p.position_last_invalid with
      | true => exact absurd (Or.inl hb) hcond
      | false => rfl
    refine ⟨_, rfl, ⟨hl, hp, hc, fun _ => hlast hinv, ?_, fun _ => hpos hinv⟩, hinv,
      ⟨[], by simp⟩⟩
    intro hh
    have hh2 : p.position_last_invalid = true := hh
    rw [hinv] at hh2
    cases hh2

theorem sendEach_throttled (A : AudioOutput α) (l : L) (period : Int) (as : List α)
    (hpos : ∀ a ∈ as, isPosition (A.CurrentPosition a)) :
    ∀ p : Player α L, throttled l period p →
      ∃ q, sendEach A p as = some q ∧ throttled l period q ∧
        (as ≠ [] → q.position_last_invalid = false) ∧
        ∃ ext, q.announced = p.announced ++ ext := by
  induction as with
  | nil =>
    intro p h
    exact ⟨p, rfl, h, fun hne => absurd rfl hne, ⟨[], by simp⟩⟩
  | cons a rest ih =>
    intro p h
    obtain ⟨q1, hq1, ht1, hinv1, ext1, he1⟩ :=
      step_throttled A l period p a h (hpos a (List.mem_cons_self a rest))
    obtain ⟨q, hq, ht, hinv, ext, he⟩ :=
      ih (fun b hb => hpos b (List.mem_cons_of_mem a hb)) q1 ht1
    refine ⟨q, ?_, ht, ?_, ⟨ext1 ++ ext, ?_⟩⟩
    · simp only [sendEach, hq1, Option.some_bind]
      exact hq
    · intro _
      cases rest with
      | nil =>
        simp only [sendEach, Option.some.injEq] at hq
        rw [← hq]
        exact hinv1
      | cons b r => exact hinv (by simp)
    · rw [he, he1, List.append_assoc]

/-- C22: with a position listener registered for a period, and positions that
are counts of microseconds from 0 to 2^63 - 1, every call of
`SendPositionIfReady` returns; the first call, on a player that has sent no
position yet, announces the current position; a later call announces it if and
only if it is at least the period past the last position sent.  Over any
sequence of calls from a player that has announced nothing, any two consecutive
positions announced differ by at least the period, the first position
announced is that of the first call, and `position_last` is the last position
announced. -/
theorem C22_position_throttle (A : AudioOutput α) (p : Player α L) (l : L)
    (hl : p.position_listener = some l) :
    (∀ a : α, p.position_last_invalid = true →
      SendPositionIfReady A { p with au := some a } =
        some { p with
          au := some a,
          announced := p.announced ++ [(l, A.CurrentPosition a)],
          position_last := A.CurrentPosition a,
          position_last_invalid := false }) ∧
    (∀ a : α, p.position_last_invalid = false →
      isPosition p.position_last → isPosition (A.CurrentPosition a) →
      (p.position_period ≤ A.CurrentPosition a - p.position_last →
        SendPositionIfReady A { p with au := some a } =
          some { p with
            au := some a,
            announced := p.announced ++ [(l, A.CurrentPosition a)],
            position_last := A.CurrentPosition a,
            position_last_invalid := false }) ∧
      (¬ p.position_period ≤ A.CurrentPosition a - p.position_last →
        SendPositionIfReady A { p with au := some a } = some { p with au := some a })) ∧
    (p.position_last_invalid = true → p.announced = [] →
      ∀ as : List α, (∀ a ∈ as, isPosition (A.CurrentPosition a)) →
        ∃ q, sendEach A p as = some q ∧
          q.position_listener = some l ∧
          q.position_period = p.position_period ∧
          List.Chain' (fun x y : Int => p.position_period ≤ y - x)
            (q.announced.map Prod.snd) ∧
          (∀ a rest, as = a :: rest →
            q.announced.head? = some (l, A.CurrentPosition a) ∧
            q.position_last_invalid = false ∧
            q.announced.getLast? = some (l, q.position_last))) := by
  refine ⟨?_, ?_, ?_⟩
  · intro a hinv
    have hone := SendPositionIfReady_registered A p l a hl
      (fun h => by rw [hinv] at h; cases h) (fun h => by rw [hinv] at h; cases h)
    rw [hone, if_pos (Or.inl hinv)]
  · intro a hinv hlast hcur
    have hone := SendPositionIfReady_registered A p l a hl (fun _ => hlast) (fun _ => hcur)
    constructor
    · intro hd
      rw [hone, if_pos (Or.inr hd)]
    · intro hd
      have hcond : ¬ (p.position_last_invalid = true ∨
          p.position_period ≤ A.CurrentPosition a - p.position_last) := by
        rintro (h1 | h2)
        · rw [hinv] at h1
          cases h1
        · exact hd h2
      rw [hone, if_neg hcond]
  · intro hinv hnil as hpos
    have h0 : throttled l p.position_period p := by
      refine ⟨hl, rfl, ?_, ?_, fun _ => hnil, ?_⟩
      · simp [hnil]
      · intro hh
        rw [hinv] at hh
        cases hh
      · intro hh
        rw [hinv] at hh
        cases hh
    obtain ⟨q, hq, ht, hi, ext, he⟩ := sendEach_throttled A l p.position_period as hpos p h0
    refine ⟨q, hq, ht.1, ht.2.1, ht.2.2.1, ?_⟩
    intro a rest has
    subst has
    have hinvq := hi (by simp)
    refine ⟨?_, hinvq, ht.2.2.2.1 hinvq⟩
    -- the first call announces, and later calls only append
    have hq1' : SendPositionIfReady A { p with au := some a } =
        some { p with
          au := some a,
          announced := p.announced ++ [(l, A.CurrentPosition a)],
          position_last := A.CurrentPosition a,
          position_last_invalid := false } := by
      rw [SendPositionIfReady_registered A p l a hl
        (fun h => by rw [hinv] at h; cases h) (fun h => by rw [hinv] at h; cases h),
        if_pos (Or.inl hinv)]
    obtain ⟨q1, hq1, ht1, -, -⟩ := step_throttled A l p.position_period p a h0
      (hpos a (List.mem_cons_self a rest))
    rw [hq1'] at hq1
    have hq1e := Option.some.inj hq1
    obtain ⟨q', hq', -, -, ext', he'⟩ := sendEach_throttled A l p.position_period rest
      (fun b hb => hpos b (List.mem_cons_of_mem a hb)) q1 ht1
    have hsame : sendEach A p (a :: rest) = some q' := by
      simp only [sendEach, hq1', Option.some_bind]
      rw [hq1e]
      exact hq'
    rw [hq] at hsame
    have hqq := Option.some.inj hsame
    rw [hqq, he', ← hq1e]
    simp [hnil]

/-- C22 on a fresh player with a listener registered for half a second, the
position being read at 0, 0.2 s, 0.5 s, 0.9 s and 1.1 s: three announcements,
at 0, 0.5 s and 1.1 s. -/
theorem C22_position_throttle_witness :
    registeredPlayer.position_listener = some "io" ∧
    registeredPlayer.position_last_invalid = true ∧
    registeredPlayer.announced = [] ∧
    (∀ a ∈ [(0 : Int), 200000, 500000, 900000, 1100000],
      isPosition (sampleOutput.CurrentPosition a)) ∧
    (sendEach sampleOutput registeredPlayer [0, 200000, 500000, 900000, 1100000]).map
      (fun q => (q.announced, q.position_last)) =
        some ([("io", 0), ("io", 500000), ("io", 1100000)], 1100000) ∧
    ∃ q, sendEach sampleOutput registeredPlayer [0, 200000, 500000, 900000, 1100000] = some q ∧
      List.Chain' (fun x y : Int => registeredPlayer.position_period ≤ y - x)
        (q.announced.map Prod.snd) :=
  ⟨rfl, rfl, rfl, by decide, by decide,
    ((C22_position_throttle sampleOutput registeredPlayer "io" rfl).2.2 rfl rfl
      [0, 200000, 500000, 900000, 1100000] (by decide)).elim
      (fun q h => ⟨q, h.1, h.2.2.2.1⟩)⟩

/-- C23, evaluated: a freshly constructed player has `position_last_invalid`
set and no listener, so `IsReadyToSendPosition` returns true without looking at
the listener; once such a player has an audio output and is playing,
`SendPositionIfReady` and `Update` invoke the null listener and fault.  The
test on the listener is made only on the other branch: once a position has
been sent, a player without listener is not ready and the call returns. -/
theorem C23_null_listener_invoked :
    (new : Player Int String).position_listener = none ∧
    IsReadyToSendPosition (new : Player Int String) 0 = true ∧
    unregisteredPlayer.position_listener = none ∧
    IsReadyToSendPosition unregisteredPlayer 0 = true ∧
    SendPositionIfReady sampleOutput unregisteredPlayer = none ∧
    Update sampleOutput (fun q => some q) unregisteredPlayer = none ∧
    IsReadyToSendPosition { unregisteredPlayer with position_last_invalid := false } 0 = false ∧
    SendPositionIfReady sampleOutput { unregisteredPlayer with position_last_invalid := false } =
      some { unregisteredPlayer with position_last_invalid := false } := by
  decide

end Player

end Legacy

end Playd
